import Mathlib

/-!
# Verification of the iris-api sender and API auth layer

Shallow embedding of `src/iris_api/bin/sender.py` and the authentication
middleware of `src/iris_api/api.py`.  Python dictionaries are modelled as
association lists or as functions into `Option`; MySQL tables are lists of
row structures; `NOW()` / `time.time()` are explicit integer parameters.
-/

set_option maxHeartbeats 1000000

namespace Iris

/-! ## Association-list helpers (model of Python `dict`) -/

/-- Look up a key in an association list (Python `d.get(k)` / `d[k]`). -/
def aget {α β : Type} [DecidableEq α] : List (α × β) → α → Option β
  | [], _ => none
  | p :: t, k => if p.1 = k then some p.2 else aget t k

/-- Set a key in an association list (Python `d[k] = v`): replace the first
binding in place, or append a new one. -/
def aset {α β : Type} [DecidableEq α] : List (α × β) → α → β → List (α × β)
  | [], k, v => [(k, v)]
  | p :: t, k, v => if p.1 = k then (k, v) :: t else p :: aset t k v

/-- Delete a key from an association list (Python `del d[k]`). -/
def aerase {α β : Type} [DecidableEq α] : List (α × β) → α → List (α × β)
  | [], _ => []
  | p :: t, k => if p.1 = k then aerase t k else p :: aerase t k

end Iris

namespace Iris.Auth

/-!
## `AuthMiddleware.process_resource` (src/iris_api/api.py, lines 555-590)

The HMAC-SHA512 / base64 pipeline is abstracted as a parameter
`sign : String → String → String` (key, text ↦ digest); everything else is
translated literally.
-/

/-- An application record from the application cache; only its HMAC `key`
matters here. -/
structure App where
  key : String
  deriving DecidableEq, Repr

/-- Outcome of `process_resource`: either the request proceeds (with the
app stored in the request context, or none for the read-only GET bypass),
or `HTTPUnauthorized` (401) is raised. -/
inductive AuthResult
  | allowed (app : Option App)
  | unauthorized
  deriving DecidableEq, Repr

/-- An HTTP request as seen by the middleware. -/
structure Req where
  method : String
  pathInfo : String
  queryString : String
  body : String
  auth : Option String
  deriving Repr

/-- Split a character list at the first `':'`: Python `s.split(':', 1)`
unpacked into exactly two variables; `none` models the `ValueError`
raised when there is no `':'`. -/
def splitAtColon : List Char → Option (List Char × List Char)
  | [] => none
  | c :: t =>
    if c = ':' then some ([], t)
    else
      match splitAtColon t with
      | none => none
      | some (a, b) => some (c :: a, b)

/-- `auth.startswith('hmac ')` followed by `auth[5:].split(':', 1)`
(api.py lines 565-567); `none` covers both a non-`hmac` header and a
missing `':'`. -/
def parseAuthHeader (auth : String) : Option (String × String) :=
  if ("hmac ".data).isPrefixOf auth.data then
    match splitAtColon (auth.data.drop 5) with
    | none => none
    | some (a, b) => some (⟨a⟩, ⟨b⟩)
  else none

/-- The text that is HMAC'd: `'%s %s %s %s' % (window, method, path, body)`. -/
def hmacText (window : Int) (method path body : String) : String :=
  toString window ++ " " ++ method ++ " " ++ path ++ " " ++ body

/-- `path = path + '?' + qs if qs else path` (api.py lines 559-562). -/
def reqPath (req : Req) : String :=
  if req.queryString ≠ "" then req.pathInfo ++ "?" ++ req.queryString
  else req.pathInfo

/-- `AuthMiddleware.process_resource`.  `sign key text` stands for
`base64.urlsafe_b64encode(hmac.new(key, text, hashlib.sha512).digest())`;
`applications` is the application cache; `nowSec` is `int(time.time())`. -/
def process_resource (sign : String → String → String)
    (applications : String → Option App)
    (nowSec : Int) (allow_read_only : Bool) (req : Req) : AuthResult :=
  if allow_read_only ∧ req.method = "GET" then
    .allowed none
  else
    let path := reqPath req
    match req.auth with
    | none => .unauthorized
    | some auth =>
      match parseAuthHeader auth with
      | none => .unauthorized
      | some (appName, clientDigest) =>
        match applications appName with
        | none => .unauthorized
        | some app =>
          let window : Int := nowSec / 5
          let digest := sign app.key (hmacText window req.method path req.body)
          if clientDigest = digest then
            .allowed (some app)
          else
            let digest2 :=
              sign app.key (hmacText (window - 1) req.method path req.body)
            if clientDigest = digest2 then
              .allowed (some app)
            else
              .unauthorized

/-- A concrete signature function used to instantiate theorems: it is
injective in the signed text. -/
def exSign : String → String → String := fun k t => k ++ "|" ++ t

/-- A concrete application cache with one application `app1`. -/
def exApps : String → Option App :=
  fun n => if n = "app1" then some ⟨"KEY"⟩ else none

/-- A concrete POST request signed for window 3 (times 15-19). -/
def exReq : Req :=
  { method := "POST", pathInfo := "/v0/incidents", queryString := "",
    body := "{}", auth := some "hmac app1:KEY|3 POST /v0/incidents {}" }

end Iris.Auth

namespace Iris.Loop

/-!
## The maintenance loop (sender.py `main`, lines 938-978)

`main` runs `while True: runtime = int(time.time()); cache refresh;
if is_master: escalate(); deactivate(); poll(); aggregate(runtime);
greenlet respawns; sleep(max(0, 60 - elapsed))`.  The timed behaviour is
embedded as a serial schedule: each call starts when the previous one
returns, and the next iteration starts after the nap.
-/

/-- The four master maintenance phases. -/
inductive Phase
  | escalate
  | deactivate
  | poll
  | aggregate
  deriving DecidableEq, Repr

/-- The body of the `if is_master:` block, in source order
(lines 949-952). -/
def masterPhases : List Phase :=
  [Phase.escalate, Phase.deactivate, Phase.poll, Phase.aggregate]

/-- Serial execution of a list of phases starting at `s` with durations
`d`: each phase starts when the previous one finishes.  Produces
`(phase, start, finish)` triples. -/
def schedule (s : Nat) (d : Phase → Nat) : List Phase → List (Phase × Nat × Nat)
  | [] => []
  | p :: ps => (p, s, s + d p) :: schedule (s + d p) d ps

/-- Timing of one loop iteration: `pre` is the time spent on
`cache.refresh()` / `cache.purge()` before the master block, `dur` the
duration of each phase, `post` the time for greenlet respawn checks and
metric emission after it. -/
structure TickTiming where
  pre : Nat
  dur : Phase → Nat
  post : Nat

/-- `elapsed_time = now - runtime` (line 974): everything the iteration
did between taking `runtime` and computing the nap. -/
def TickTiming.elapsed (tt : TickTiming) : Nat :=
  tt.pre + tt.dur .escalate + tt.dur .deactivate + tt.dur .poll +
    tt.dur .aggregate + tt.post

/-- `nap_time = max(0, interval - elapsed_time)` with `interval = 60`
(lines 938, 975). -/
def napTime (tt : TickTiming) : Nat :=
  max 0 (60 - tt.elapsed)

/-- `runtime` of the n-th loop iteration: the previous iteration's
start plus its work plus its nap. -/
def tickStart (t0 : Nat) (tt : Nat → TickTiming) : Nat → Nat
  | 0 => t0
  | n + 1 => tickStart t0 tt n + (tt n).elapsed + napTime (tt n)

/-- The timed events of the master block during iteration `n`. -/
def tickEvents (t0 : Nat) (tt : Nat → TickTiming) (n : Nat) :
    List (Phase × Nat × Nat) :=
  schedule (tickStart t0 tt n + (tt n).pre) (tt n).dur masterPhases

/-- A concrete timing profile for instantiating the loop theorems. -/
def exTT : Nat → TickTiming := fun _ => ⟨1, fun _ => 2, 3⟩

end Iris.Loop

namespace Iris.Agg

/-!
## The aggregation engine (sender.py lines 180-198, 404-448, 485-547)

The module-level dicts `windows`, `messages`, `queues`, `aggregation`,
`sent` become one state record; Python sets become insertion-ordered
duplicate-free lists (`next(iter(s))` is the head); `uuid4().hex` becomes
a supply of strings indexed by loop position; the database activity check
inside `aggregate` becomes a predicate `activeDb`.  `KeyError` (missing
dict key where the source indexes unconditionally) is `none`.
-/

/-- Aggregation key `K = (plan_id, application, priority, target)`
(sender.py line 497). -/
abbrev Key : Type := Nat × String × String × String

/-- The plan fields consulted by the aggregation engine. -/
structure AggPlan where
  aggregation_window : Int
  aggregation_reset : Int
  threshold_window : Int
  threshold_count : Nat
  deriving DecidableEq, Repr

/-- A message payload as carried through the intake and send queues.
Only the fields the aggregation engine reads or writes are modelled. -/
structure AggMsg where
  message_id : Nat
  plan_id : Option Nat
  application : String
  priority : String
  target : String
  batch_id : Option String := none
  aggregated_ids : Option (List Nat) := none
  deriving DecidableEq, Repr

/-- The key a message maps to (line 497); `none` for out-of-band
messages with `plan_id` null. -/
def msgKey (m : AggMsg) : Option Key :=
  m.plan_id.map (fun pid => (pid, m.application, m.priority, m.target))

/-- The mutable state of the aggregation engine plus the send queue and
the audit log written by `spawn(auditlog.message_change, ...)`. -/
structure AggState where
  windows : List (Key × List (Int × Nat))
  messages : List (Nat × AggMsg)
  queues : List (Key × List Nat)
  aggregation : List (Key × Int)
  sent : List (Key × Int)
  sendQueue : List AggMsg
  audit : List (Nat × String)
  deriving DecidableEq, Repr

/-- The empty initial state (module load). -/
def emptyState : AggState := ⟨[], [], [], [], [], [], []⟩

/-- `queues.setdefault(key, set()).add(message_id)` (line 519). -/
def qadd (queues : List (Key × List Nat)) (key : Key) (id : Nat) :
    List (Key × List Nat) :=
  match aget queues key with
  | some qs => aset queues key (if id ∈ qs then qs else qs ++ [id])
  | none => queues ++ [(key, [id])]

/-- `window[now] += 1` on a `defaultdict(int)` (line 529). -/
def bump (w : List (Int × Nat)) (t : Int) : List (Int × Nat) :=
  match aget w t with
  | some c => aset w t (c + 1)
  | none => w ++ [(t, 1)]

/-- `sum(window.itervalues())` (line 531). -/
def sumWindow (w : List (Int × Nat)) : Nat :=
  (w.map Prod.snd).sum

/-- The rate-limit branch of `fetch_and_prepare_message`
(lines 521-547): prune the sliding window, count this message, and
either enter aggregation mode or enqueue for immediate sending. -/
def windowBranch (plan : AggPlan) (now : Int) (key : Key) (m : AggMsg)
    (st1 : AggState) : AggState :=
  let window := (aget st1.windows key).getD []
  let window := window.filter (fun b => ¬ now - b.1 > plan.threshold_window)
  let window := bump window now
  let st2 := { st1 with windows := aset st1.windows key window }
  if sumWindow window > plan.threshold_count then
    { st2 with
      queues := aset st2.queues key [m.message_id],
      messages := aset st2.messages m.message_id m,
      sent := aset st2.sent key now,
      aggregation := aset st2.aggregation key now,
      audit := st2.audit ++ [(m.message_id, "SENT_CHANGE")] }
  else
    { st2 with sendQueue := st2.sendQueue ++ [m] }

/-- `fetch_and_prepare_message` (lines 485-547) for one message `m`
pulled from the intake queue at time `now`.  `none` models an uncaught
`KeyError` on `cache.plans[plan_id]`.  Note Python's
`if last_aggregation:` also treats a stored timestamp `0` as absent
(without deleting it). -/
def fetch_and_prepare_message (plans : Nat → Option AggPlan) (now : Int)
    (m : AggMsg) (st : AggState) : Option AggState :=
  match m.plan_id with
  | none => some { st with sendQueue := st.sendQueue ++ [m] }
  | some pid =>
    match plans pid with
    | none => none
    | some plan =>
      let key : Key := (pid, m.application, m.priority, m.target)
      match aget st.aggregation key with
      | some lastAgg =>
        if lastAgg = 0 then
          some (windowBranch plan now key m st)
        else if now - lastAgg > plan.aggregation_reset then
          some (windowBranch plan now key m
            { st with aggregation := aerase st.aggregation key,
                      sent := aerase st.sent key })
        else
          some { st with
            aggregation := aset st.aggregation key now,
            queues := qadd st.queues key m.message_id,
            messages := aset st.messages m.message_id m }
      | none => some (windowBranch plan now key m st)

/-- `del messages[i]` for each id in turn (lines 426-427, 442-443);
`none` is the `KeyError` on a missing id. -/
def delMsgs : List (Nat × AggMsg) → List Nat → Option (List (Nat × AggMsg))
  | msgs, [] => some msgs
  | msgs, i :: t =>
    match aget msgs i with
    | none => none
    | some _ => delMsgs (aerase msgs i) t

/-- The body of the `for key in queues.keys()` loop of `aggregate`
(lines 408-446) for one key, with `uuid` the value of `uuid4().hex` if
this iteration generates a batch. -/
def aggregateKey (plans : Nat → Option AggPlan) (activeDb : Nat → Bool)
    (now : Int) (uuid : String) (st : AggState) (key : Key) :
    Option AggState :=
  match plans key.1 with
  | none => none
  | some plan =>
    if now - ((aget st.sent key).getD 0) ≥ plan.aggregation_window then
      match aget st.queues key with
      | none => none
      | some qids =>
        let activeIds := qids.filter (fun i => activeDb i)
        let inactiveIds := qids.filter (fun i => !(activeDb i))
        match delMsgs st.messages inactiveIds with
        | none => none
        | some msgs1 =>
          match activeIds with
          | [i] =>
            match aget msgs1 i with
            | none => none
            | some m =>
              some { st with
                messages := aerase msgs1 i,
                queues := aerase st.queues key,
                sent := aset st.sent key now,
                sendQueue := st.sendQueue ++ [m] }
          | [] =>
            some { st with
              messages := msgs1,
              queues := aerase st.queues key,
              sent := aset st.sent key now }
          | i :: _ :: _ =>
            match aget msgs1 i with
            | none => none
            | some m =>
              let rep := { m with batch_id := some uuid,
                                  aggregated_ids := some activeIds }
              match delMsgs msgs1 activeIds with
              | none => none
              | some msgs2 =>
                some { st with
                  messages := msgs2,
                  queues := aerase st.queues key,
                  sent := aset st.sent key now,
                  sendQueue := st.sendQueue ++ [rep] }
    else
      some st

/-- `aggregate(now)` (lines 404-448): iterate the key-step over the
snapshot of `queues.keys()`; `uuid i` is the `uuid4().hex` available to
the i-th iteration. -/
def aggregateGo (plans : Nat → Option AggPlan) (activeDb : Nat → Bool)
    (now : Int) (uuid : Nat → String) :
    List Key → Nat → AggState → Option AggState
  | [], _, st => some st
  | k :: ks, i, st =>
    match aggregateKey plans activeDb now (uuid i) st k with
    | none => none
    | some st' => aggregateGo plans activeDb now uuid ks (i + 1) st'

/-- `aggregate(now)` entry point. -/
def aggregate (plans : Nat → Option AggPlan) (activeDb : Nat → Bool)
    (now : Int) (uuid : Nat → String) (st : AggState) : Option AggState :=
  aggregateGo plans activeDb now uuid (st.queues.map Prod.fst) 0 st

/-- A concrete aggregation key for instantiating theorems. -/
def exKey : Key := (1, "app", "high", "u")

/-- Concrete buffered messages for instantiating theorems. -/
def exM1 : AggMsg :=
  { message_id := 1, plan_id := some 1, application := "app",
    priority := "high", target := "u" }

/-- Second concrete buffered message. -/
def exM2 : AggMsg :=
  { message_id := 2, plan_id := some 1, application := "app",
    priority := "high", target := "u" }

/-- A concrete plan cache: plan 1 with aggregation window 30, reset 1000,
threshold window 100, threshold count 0. -/
def exPlans : Nat → Option AggPlan :=
  fun p => if p = 1 then some ⟨30, 1000, 100, 0⟩ else none

/-- A concrete engine state: key `exKey` entered aggregation at t = 1 and
has messages 1 and 2 buffered; the last batch was sent at t = 1. -/
def exAggSt : AggState :=
  { windows := [(exKey, [(1, 1)])],
    messages := [(1, exM1), (2, exM2)],
    queues := [(exKey, [1, 2])],
    aggregation := [(exKey, 5)],
    sent := [(exKey, 1)],
    sendQueue := [],
    audit := [(1, "SENT_CHANGE")] }

/-- Follows the spec's words in claim C4: the number of messages of the
intake trace classified under key `K` whose timestamps lie within the
last `threshold` seconds before `now`. -/
def specClassifiedCount (trace : List (Int × AggMsg)) (K : Key)
    (now threshold : Int) : Nat :=
  (trace.filter (fun p => msgKey p.2 = some K ∧ now - p.1 ≤ threshold)).length

/-- Instrumentation mirroring the branch test of
`fetch_and_prepare_message`: true iff the message is routed through the
sliding-window rate-limit branch (rather than bypassed or buffered). -/
def isWindowPath (plans : Nat → Option AggPlan) (st : AggState) (now : Int)
    (m : AggMsg) : Bool :=
  match m.plan_id with
  | none => false
  | some pid =>
    match plans pid with
    | none => false
    | some plan =>
      match aget st.aggregation (pid, m.application, m.priority, m.target) with
      | some lastAgg => lastAgg = 0 || decide (now - lastAgg > plan.aggregation_reset)
      | none => true

/-- Run the intake loop over a timed trace, collecting the timestamps of
the messages classified under `K` through the rate-limit branch. -/
def runCollect (plans : Nat → Option AggPlan) (K : Key) :
    List (Int × AggMsg) → AggState → Option (AggState × List Int)
  | [], st => some (st, [])
  | (t, m) :: tr, st =>
    match fetch_and_prepare_message plans t m st with
    | none => none
    | some st' =>
      (runCollect plans K tr st').map
        (fun p => (p.1,
          (if msgKey m = some K ∧ isWindowPath plans st t m then [t] else []) ++
            p.2))

/-- The window content predicted for key `K` after rate-limit intakes at
the strictly increasing times `ts`, the most recent being `last`: one
bucket of count 1 per retained timestamp. -/
def expectedWindow (threshold : Int) (ts : List Int) (last : Int) :
    List (Int × Nat) :=
  (ts.filter (fun u => last - u ≤ threshold)).map (fun u => (u, 1))

/-- Well-formedness of the engine state, maintained by the intake path:
queue keys are distinct, each queued id set is duplicate-free, queued
ids of distinct keys are disjoint, and every queued id is buffered in
`messages` under a payload whose key is the queue key. -/
def WF (st : AggState) : Prop :=
  (st.queues.map Prod.fst).Nodup ∧
  (∀ p ∈ st.queues, p.2.Nodup) ∧
  (∀ p ∈ st.queues, ∀ q ∈ st.queues, p.1 ≠ q.1 → ∀ i ∈ p.2, i ∉ q.2) ∧
  (∀ p ∈ st.queues, ∀ i ∈ p.2,
    (aget st.messages i).map msgKey = some (some p.1))

end Iris.Agg

namespace Iris.Send

/-!
## Contact resolution, rendering and dispatch
(sender.py lines 575-664, 666-737, 739-781, 803-841)

Python dict keys that may be absent or `None` are `Option` fields (the
send pipeline never stores `None` under a key it also tests with
`'key' in message`, so the two collapse safely).  The database is a list
of rows per table; `NOW()` is a parameter.  The vendor call
`distributed_send_message` is abstracted as a `DMessage → Bool`
predicate (`false` = the call raised); `cache.target_reprioritization`
and `update_message_mode` live in modules outside `src/` and are
abstracted as opaque functions.
-/

/-- A message as carried by the send queue and the dispatcher. -/
structure DMessage where
  message_id : Option Nat := none
  incident_id : Option Nat := none
  target : String := ""
  application : String := ""
  plan : Option String := none
  priority_id : Nat := 0
  mode : Option String := none
  mode_id : Option Nat := none
  destination : Option String := none
  template : Option String := none
  template_id : Option Nat := none
  subject : Option String := none
  body : Option String := none
  context : List (String × String) := []
  aggregated_ids : Option (List Nat) := none
  batch_id : Option String := none
  extra_html : Option String := none
  deriving Repr

/-- One `target_contact` row joined with `mode` (the SELECT of
`set_target_fallback_mode` / `set_target_contact_by_priority`). -/
structure ContactRow where
  target : String
  mode_name : String
  mode_id : Nat
  destination : String
  deriving DecidableEq, Repr

/-- The tables consulted during contact resolution. -/
structure ContactDb where
  contacts : List ContactRow
  target_application_mode : List ((String × String × Nat) × Nat)
  target_mode : List ((String × Nat) × Nat)
  priority_mode : Nat → Option Nat

/-- `target_fallback_mode = 'email'` (sender.py line 216). -/
def target_fallback_mode : String := "email"

/-- `set_target_fallback_mode` (lines 575-597): look up the target's
contact for the fallback mode; exactly one row is unpacked, anything
else raises `ValueError`, caught to null the message out and return
failure. -/
def set_target_fallback_mode (db : ContactDb) (m : DMessage) :
    DMessage × Bool :=
  match db.contacts.filter
      (fun c => c.target = m.target ∧ c.mode_name = target_fallback_mode) with
  | [c] => ({ m with destination := some c.destination,
                     mode := some c.mode_name,
                     mode_id := some c.mode_id }, true)
  | _ => ({ m with destination := none, mode := none, mode_id := none }, false)

/-- The `IFNULL(app-specific, IFNULL(user-default, priority-default))`
mode selection of `set_target_contact_by_priority` (lines 607-629). -/
def resolved_mode_id (db : ContactDb) (m : DMessage) : Option Nat :=
  match aget db.target_application_mode (m.target, m.application, m.priority_id) with
  | some mid => some mid
  | none =>
    match aget db.target_mode (m.target, m.priority_id) with
    | some mid => some mid
    | none => db.priority_mode m.priority_id

/-- `set_target_contact_by_priority` (lines 600-638); `none` is the
`ValueError` raised by unpacking a row count different from one. -/
def set_target_contact_by_priority (db : ContactDb) (m : DMessage) :
    Option DMessage :=
  match db.contacts.filter
      (fun c => c.target = m.target ∧ some c.mode_id = resolved_mode_id db m) with
  | [c] => some { m with destination := some c.destination,
                         mode := some c.mode_name,
                         mode_id := some c.mode_id }
  | _ => none

/-- `set_target_contact` (lines 641-663).  `reprio` abstracts
`cache.target_reprioritization`.  Result `none` models the uncaught
`TypeError` when a pre-set mode has no contact row (`fetchone()[0]` on
`None`); otherwise the Bool is the function's return value. -/
def set_target_contact (db : ContactDb) (reprio : DMessage → DMessage)
    (m : DMessage) : Option (DMessage × Bool) :=
  if m.mode.isSome then
    match db.contacts.filter
        (fun c => c.target = m.target ∧ some c.mode_id = m.mode_id) with
    | c :: _ =>
      some (reprio { m with destination := some c.destination }, true)
    | [] => none
  else
    match set_target_contact_by_priority db m with
    | some m1 => some (reprio m1, true)
    | none => some (set_target_fallback_mode db m)

/-- A `message` table row as touched by the dispatcher. -/
structure MRow where
  id : Nat
  destination : Option String := none
  mode_id : Option Nat := none
  template_id : Option Nat := none
  subject : Option String := none
  body : Option String := none
  batch : Option String := none
  sent : Option Int := none
  active : Bool := true
  deriving DecidableEq, Repr

/-- An audit record written through `auditlog.message_change`. -/
structure AuditRec where
  message_id : Option Nat
  change_type : String
  old : String
  new : String
  description : String
  deriving DecidableEq, Repr

/-- `mark_message_has_no_contact` (lines 766-781): deactivate the row
and audit `MODE_CHANGE target_fallback_mode → 'invalid'`; without a
message id only a warning is logged. -/
def mark_message_has_no_contact (rows : List MRow) (audit : List AuditRec)
    (m : DMessage) : List MRow × List AuditRec :=
  match m.message_id with
  | none => (rows, audit)
  | some mid =>
    (rows.map (fun r => if r.id = mid then { r with active := false } else r),
     audit ++ [⟨some mid, "MODE_CHANGE", target_fallback_mode, "invalid",
               "Ignore message as we failed to resolve target contact"⟩])

/-- Python `s[:255]` (by characters). -/
def pyTruncate255 (s : String) : String :=
  if s.length > 255 then String.mk (s.data.take 255) else s

/-- `mark_message_as_sent` (lines 739-763): one UPDATE statement; for a
batch the row set is `aggregated_ids`, otherwise the single message id
(`WHERE id = NULL` matches nothing when the id is absent).  The
`params` list (lines 741-747) captures `message['subject']` and
`message['body']` BEFORE the blank/255 fix-ups of lines 755-759 run, and
those fix-ups only rebind `message['subject']` in the local dict, so the
UPDATE stores the original subject and body verbatim (possibly NULL,
possibly longer than 255 characters); see `subject_fixup`. -/
def mark_message_as_sent (rows : List MRow) (now : Int) (m : DMessage) :
    List MRow :=
  match m.aggregated_ids with
  | some ids =>
    rows.map (fun r =>
      if r.id ∈ ids then
        { r with destination := m.destination, mode_id := m.mode_id,
                 template_id := m.template_id, subject := m.subject,
                 body := m.body, batch := m.batch_id,
                 active := false, sent := some now }
      else r)
  | none =>
    rows.map (fun r =>
      if m.message_id = some r.id then
        { r with destination := m.destination, mode_id := m.mode_id,
                 template_id := m.template_id, subject := m.subject,
                 body := m.body,
                 active := false, sent := some now }
      else r)

/-- The blank/255 fix-ups of lines 755-759: a falsy subject (None or
`''`) is replaced by `''` and a subject longer than 255 characters is
cut to `subject[:255]`.  They run after `params` has been built and
rebind only the local dict's `message['subject']`, so this repaired
value never reaches the UPDATE of `mark_message_as_sent`. -/
def subject_fixup (m : DMessage) : DMessage :=
  let m1 := if m.subject = none ∨ m.subject = some "" then
    { m with subject := some "" } else m
  { m1 with subject := some (pyTruncate255 (m1.subject.getD "")) }

/-- Which rows the sent-update targets. -/
def sentTarget (m : DMessage) (r : MRow) : Prop :=
  match m.aggregated_ids with
  | some ids => r.id ∈ ids
  | none => m.message_id = some r.id

instance (m : DMessage) (r : MRow) : Decidable (sentTarget m r) := by
  unfold sentTarget
  cases m.aggregated_ids <;> infer_instance

/-- A per-(application, mode) template entry: rendering may raise, which
`Except.error` carries as `str(e)`. -/
structure ModeTpl where
  subjectTpl : List (String × String) → Except String String
  bodyTpl : List (String × String) → Except String String

/-- A template cache entry: `cache.templates[name]` with its id and the
per-application, per-mode table. -/
structure Tpl where
  id : Nat
  apps : String → Option (String → Option ModeTpl)

/-- `'%(message_id)s' % message` for an optional id. -/
def pyStrOptNat : Option Nat → String
  | none => "None"
  | some n => toString n

/-- The synthetic message produced when any lookup or render step fails
(lines 713-722): the subject is assigned first, so `repr(message)` in
the body already shows it. -/
def renderError (reprF : DMessage → String) (m : DMessage) (err : String) :
    DMessage :=
  let mSubj := { m with
    subject := some (pyStrOptNat m.message_id ++
      " Iris failed to render your message") }
  let mBody := { mSubj with
    body := some ("Failed rendering message.\n\nContext: " ++ reprF mSubj ++
      "\n\nError: " ++ err) }
  { mBody with template_id := none }

/-- `render` (lines 666-737).  `msgContent` is the stored subject/body
lookup for iris email responses (`none` result = the uncaught
`TypeError` on a missing row); `reprF` is Python `repr`;
`oneclickMarkup` abstracts the oneclick URL markup generation. -/
def render (templates : String → Option Tpl)
    (msgContent : Nat → Option (String × String))
    (reprF : DMessage → String)
    (enableOneclick : Bool) (oneclickMarkup : DMessage → String)
    (m : DMessage) : Option DMessage :=
  match m.template with
  | none =>
    match m.message_id with
    | some mid =>
      match msgContent mid with
      | none => none
      | some sc => some { m with body := some sc.2, subject := some sc.1 }
    | none => some m
  | some tname =>
    match m.aggregated_ids with
    | some ids =>
      some { m with
        subject := some ("[" ++ m.application ++ "] " ++ toString ids.length ++
          " messages from plan " ++ (m.plan.getD "None")),
        body := some ("Batch ID: " ++ (m.batch_id.getD "None")),
        template_id := none }
    | none =>
      let m1 := if m.body = none then { m with body := some "" } else m
      match templates tname with
      | none =>
        some (renderError reprF m1 ("template " ++ tname ++ " does not exist"))
      | some tpl =>
        match tpl.apps m.application with
        | none =>
          some (renderError reprF m1 ("template " ++ tname ++
            " does not have application " ++ m.application))
        | some appT =>
          let mode := m.mode.getD "None"
          match appT mode with
          | none =>
            some (renderError reprF m1 ("template " ++ tname ++ " - " ++
              m.application ++ " does not have mode " ++ mode))
          | some mt =>
            let step1 :=
              match mt.subjectTpl m.context with
              | .ok s => ({ m1 with subject := some s },
                  (none : Option String))
              | .error e => (m1, some ("template " ++ tname ++ " - " ++
                  m.application ++ " - " ++ mode ++
                  " - subject failed to render: " ++ e))
            let step2 :=
              match mt.bodyTpl m.context with
              | .ok b => ({ step1.1 with
                  body := some ((step1.1.body.getD "") ++ b) }, step1.2)
              | .error e => (step1.1, some ("template " ++ tname ++ " - " ++
                  m.application ++ " - " ++ mode ++
                  " - body failed to render: " ++ e))
            let m4 := { step2.1 with template_id := some tpl.id }
            match step2.2 with
            | some err => some (renderError reprF m4 err)
            | none =>
              if enableOneclick ∧ mode = "email" ∧ m.incident_id.isSome then
                some { m4 with extra_html := some (oneclickMarkup m4) }
              else
                some m4

/-- `fetch_and_send_message` (lines 803-841) for one message pulled from
the send queue.  `send1` abstracts `distributed_send_message` (`false` =
it raised); `updateMode` abstracts `update_message_mode`; the Option is
the uncaught `TypeError` of `set_target_contact` or of the stored-content
lookup in `render` (worker crash).  Returns the updated message table,
the audit log, and the list of successfully delivered messages. -/
def fetch_and_send_message (db : ContactDb) (reprio : DMessage → DMessage)
    (templates : String → Option Tpl)
    (msgContent : Nat → Option (String × String))
    (reprF : DMessage → String)
    (enableOneclick : Bool) (oneclickMarkup : DMessage → String)
    (send1 : DMessage → Bool)
    (updateMode : List MRow → DMessage → List MRow)
    (now : Int) (rows : List MRow) (audit : List AuditRec) (m0 : DMessage) :
    Option (List MRow × List AuditRec × List DMessage) :=
  match set_target_contact db reprio m0 with
  | none => none
  | some (m1, has_contact) =>
    if ¬ has_contact then
      let ra := mark_message_has_no_contact rows audit m1
      some (ra.1, ra.2, [])
    else
      match render templates msgContent reprF enableOneclick oneclickMarkup m1 with
      | none => none
      | some m3 =>
        if send1 m3 then
          if m3.message_id.isSome then
            some (mark_message_as_sent rows now m3, audit, [m3])
          else
            some (rows, audit, [m3])
        else
          if m3.mode = some "email" then
            some (rows, audit, [])
          else
            let fb := set_target_fallback_mode db m3
            let ra :=
              if fb.2 then
                (updateMode rows fb.1,
                 audit ++ [⟨m3.message_id, "MODE_CHANGE",
                   m3.mode.getD "None", fb.1.mode.getD "None",
                   "Changing mode due to original mode failure"⟩])
              else (rows, audit)
            match render templates msgContent reprF enableOneclick
                oneclickMarkup fb.1 with
            | none => none
            | some m5 =>
              if send1 m5 then
                if m5.message_id.isSome then
                  some (mark_message_as_sent ra.1 now m5, ra.2, [m5])
                else
                  some (ra.1, ra.2, [m5])
              else
                some (ra.1, ra.2, [])

/-- An empty contact database: no contacts, no mode preferences. -/
def exCDb : ContactDb :=
  { contacts := [], target_application_mode := [], target_mode := [],
    priority_mode := fun _ => none }

/-- A concrete incident message with id 7 and no pre-set mode. -/
def exDMsg : DMessage :=
  { message_id := some 7, target := "u1", application := "app",
    priority_id := 2 }

/-- A concrete message row with id 7, still active. -/
def exMRow : MRow := { id := 7 }

/-- A concrete templated message whose template is unknown. -/
def exRMsg : DMessage :=
  { message_id := some 9, target := "u1", application := "app",
    mode := some "sms", template := some "missing_tpl" }

/-- A placeholder for Python repr in witnesses. -/
def exReprF : DMessage → String := fun _ => "CTX"

/-- A concrete batch message over rows 1 and 2. -/
def exBatchMsg : DMessage :=
  { message_id := some 1, destination := some "a@b.c", mode_id := some 4,
    template_id := some 11, subject := some "hello", body := some "world",
    batch_id := some "deadbeef", aggregated_ids := some [1, 2] }

/-- A 256-character subject, one past the 255-character cut. -/
def longSubject : String := String.mk (List.replicate 256 'a')

/-- A concrete batch message over rows 1 and 2 whose subject is 256
characters long. -/
def exLongMsg : DMessage :=
  { message_id := some 1, destination := some "a@b.c", mode_id := some 4,
    template_id := some 11, subject := some longSubject,
    body := some "world", batch_id := some "deadbeef",
    aggregated_ids := some [1, 2] }

end Iris.Send
namespace Iris.Esc

/-!
Model of the escalation engine of `bin/sender.py`: the SQL statements
`QUEUE_SQL` (lines 77-112) and `INACTIVE_SQL` (lines 38-75), the function
`create_messages` (lines 221-285), `deactivate` (lines 288-301) and
`escalate` (lines 304-401).

The `cache` / `api_cache` modules are not part of the sources; following
the spec they are modelled as abstract lookup functions bundled in
`Caches`.  `cache.target_names[name]` returns a row or a falsy value;
a falsy result is modelled as `none`, a truthy row as `some target_id`
(only its `id` is read).  `plan['steps']` maps a step number to the list
of plan_notification ids of that step, with `.get(step, [])` built in as
a total function defaulting to `[]`.  The MySQL tables are lists of row
structures and `NOW()` is an explicit `now : Int`; `message.sent` is
nullable (`Option Int`), `message.created` is set on insert and never
NULL.  Tracking notifications (lines 318-363) only spawn an e-mail and
touch no table, so they are not modelled.
-/

structure Message where
  id : Nat := 0
  incident_id : Nat := 0
  plan_notification_id : Nat := 0
  plan_id : Nat := 0
  application_id : Nat := 0
  target_id : Nat := 0
  priority_id : Nat := 0
  body : String := ""
  created : Int := 0
  sent : Option Int := none
deriving DecidableEq, Repr

structure Incident where
  id : Nat := 0
  plan_id : Nat := 0
  application_id : Nat := 0
  current_step : Nat := 0
  active : Bool := true
deriving DecidableEq, Repr

/-- A `plan_notification` row; `repeat_count` models the `repeat` column
(a Lean keyword). -/
structure PlanNotification where
  id : Nat := 0
  plan_id : Nat := 0
  role_id : Nat := 0
  target_id : Nat := 0
  priority_id : Nat := 0
  step : Nat := 0
  repeat_count : Nat := 0
  wait : Int := 0
deriving DecidableEq, Repr

structure Plan where
  creator : Option String := none
  steps : Nat → List Nat := fun _ => []
  step_count : Nat := 0

/-- The caches read by `create_messages` and `escalate`, and the
`plan_notification` / `plan` tables joined by the SQL (the caches mirror
those tables). -/
structure Caches where
  incidents_app : Nat → Nat
  plan_notifications : Nat → PlanNotification
  roles : Nat → String
  targets : Nat → String
  targets_for_role : String → String → List String
  plans : Nat → Plan
  target_names : String → Option Nat
  low_priority_id : Option Nat

structure DB where
  messages : List Message
  incidents : List Incident

/-- A row inserted by `INSERT_MESSAGE_SQL` (lines 118-120). -/
structure NewMsg where
  plan_id : Nat
  plan_notification_id : Nat
  incident_id : Nat
  application_id : Nat
  target_id : Nat
  priority_id : Nat
  body : String
deriving DecidableEq, Repr

/-- `create_messages` (lines 221-285).  Returns the Python result
(`True`/`False`) together with the rows inserted by the loop over
`names` (lines 265-280): one row per name whose `target_names` entry is
truthy, unresolvable names are skipped.  The empty-`names` branch
(lines 232-260) falls back to the plan creator at low priority, failing
when the creator or the low priority id cannot be found. -/
def create_messages (c : Caches) (incident_id plan_notification_id : Nat) :
    Bool × List NewMsg :=
  let application_id := c.incidents_app incident_id
  let pn := c.plan_notifications plan_notification_id
  let role := c.roles pn.role_id
  let target := c.targets pn.target_id
  let names := c.targets_for_role role target
  let insert := fun (nms : List String) (priority_id : Nat) (body : String) =>
    nms.filterMap fun name =>
      (c.target_names name).map fun target_id =>
        ({ plan_id := pn.plan_id, plan_notification_id, incident_id,
           application_id, target_id, priority_id, body } : NewMsg)
  if names.isEmpty then
    match (c.plans pn.plan_id).creator with
    | none => (false, [])
    | some name =>
      if name = "" then (false, [])
      else
        match c.low_priority_id with
        | none => (false, [])
        | some lowp =>
          let body := "You are receiving this as you created this plan and we can't resolve "
            ++ role ++ " of " ++ target ++ " at this time.\n\n"
          (true, insert [name] lowp body)
  else
    (true, insert names pn.priority_id "")

/-- First occurrence of each key, in order (the grouping order of a
GROUP BY). -/
def firstKeys {α κ : Type} [DecidableEq κ] (key : α → κ) : List α → List κ
  | [] => []
  | x :: xs => key x :: (firstKeys key xs).filter (fun k => ¬ k = key x)

def incidentById (db : DB) (i : Nat) : Option Incident :=
  db.incidents.find? (fun r => r.id = i)

/-- The join rows of `QUEUE_SQL`'s inner query (lines 102-107): messages
joined to their (active) incident; the `plan_notification` and `plan`
joins always hit via the total cache functions. -/
def queueJoin (db : DB) : List Message :=
  db.messages.filter fun m =>
    match incidentById db m.incident_id with
    | some i => i.active
    | none => false

/-- One output row of `QUEUE_SQL` (columns of lines 77-87). -/
structure QRow where
  incident_id : Nat
  plan_id : Nat
  plan_notification_id : Nat
  count : Nat
  max : Nat
  age : Int
  wait : Int
  step : Nat
  current_step : Nat
  step_count : Nat
deriving DecidableEq, Repr

/-- A group of `QUEUE_SQL`'s inner query: key `(incident_id,
plan_notification_id, target_id)`, `count` messages, `age` from
`max(created)` (line 94; `created` is never NULL). -/
structure QInner where
  incident_id : Nat
  plan_id : Nat
  plan_notification_id : Nat
  count : Nat
  age : Int
deriving DecidableEq, Repr

def maxFoldInt (x : Int) (xs : List Int) : Int :=
  xs.foldl (fun a b => if a < b then b else a) x

/-- The inner `GROUP BY incident.id, plan_notification_id, target_id`
of `QUEUE_SQL` (line 107) applied to one group. -/
def queueInnerRow (db : DB) (now : Int) (k : Nat × Nat × Nat) : QInner :=
  let G := (queueJoin db).filter fun m =>
    (m.incident_id, m.plan_notification_id, m.target_id) = k
  { incident_id := k.1
    plan_id := (G.head?.map (·.plan_id)).getD 0
    plan_notification_id := k.2.1
    count := G.length
    age := now - maxFoldInt ((G.head?.map (·.created)).getD 0)
      ((G.map (·.created)).drop 1) }

def queueInner (db : DB) (now : Int) : List QInner :=
  (firstKeys (fun m => (m.incident_id, m.plan_notification_id, m.target_id))
    (queueJoin db)).map (queueInnerRow db now)

/-- The outer `GROUP BY incident_id, plan_notification_id` of `QUEUE_SQL`
(line 109): `count` is `max(count)` over the group; `age` is selected
unaggregated, so MySQL returns an arbitrary row's value — modelled as
the first group member's. -/
def queueOuterRow (c : Caches) (db : DB) (inner : List QInner)
    (k2 : Nat × Nat) : Option QRow :=
  match inner.filter (fun r => (r.incident_id, r.plan_notification_id) = k2) with
  | [] => none
  | r :: rs =>
    let pn := c.plan_notifications k2.2
    some { incident_id := k2.1
           plan_id := r.plan_id
           plan_notification_id := k2.2
           count := rs.foldl (fun a g => Nat.max a g.count) r.count
           max := pn.repeat_count + 1
           age := r.age
           wait := pn.wait
           step := pn.step
           current_step := ((incidentById db k2.1).map (·.current_step)).getD 0
           step_count := (c.plans r.plan_id).step_count }

/-- The `HAVING` clause of `QUEUE_SQL` (lines 110-112). -/
def queueHaving (q : QRow) : Bool :=
  q.wait < q.age ∧ (q.count < q.max ∨
    (q.count = q.max ∧ q.step = q.current_step ∧ q.step < q.step_count))

/-- The full result set of `QUEUE_SQL` at time `now`. -/
def queueRows (c : Caches) (db : DB) (now : Int) : List QRow :=
  (((firstKeys (fun r => (r.incident_id, r.plan_notification_id))
      (queueInner db now)).filterMap
    (queueOuterRow c db (queueInner db now))).filter queueHaving)

/-- The per-row dispatch of `escalate`'s second loop (lines 371-376):
`count < max` repeats the notification now, otherwise the incident is
recorded for escalation to `current_step + 1`. -/
def handleQueueRow (c : Caches) (n : QRow) : Option (Nat × Nat) × List NewMsg :=
  if n.count < n.max then
    (none, (create_messages c n.incident_id n.plan_notification_id).2)
  else
    (some (n.plan_id, n.current_step + 1), [])

inductive IncidentUpdate where
  | setStep (s : Nat)
  | invalidate
deriving DecidableEq, Repr

/-- One iteration of the `escalations` loop (lines 378-395): an empty
step invalidates the incident; otherwise one `create_messages` call per
plan_notification of the step, with the step-1 reset to 0 when none of
them succeeded, and `UPDATE_INCIDENT_SQL` to the (possibly reset)
step. -/
def processEscalation (c : Caches) (incident_id plan_id step : Nat) :
    IncidentUpdate × List NewMsg :=
  let steps := (c.plans plan_id).steps step
  if steps.isEmpty then
    (.invalidate, [])
  else
    let results := steps.map fun pnid => create_messages c incident_id pnid
    let step_msg_cnt := (results.filter (·.1)).length
    let step' := if step = 1 ∧ step_msg_cnt = 0 then 0 else step
    (.setStep step', (results.map (·.2)).flatten)

structure EscOut where
  escalations : List (Nat × Nat × Nat)
  inserted : List NewMsg
  updates : List (Nat × IncidentUpdate)

/-- `escalate` (lines 304-401).  Phase 1 (lines 313-317, the
`NEW_INCIDENTS` query of lines 22-36) seeds `escalations` with
`(plan_id, 1)` for active incidents at `current_step = 0`; phase 2
iterates `QUEUE_SQL` through `handleQueueRow`; the final loop applies
`processEscalation` to each escalation entry.  The Python 2 dict is an
association list in insertion order. -/
def escalate (c : Caches) (db : DB) (now : Int) : EscOut :=
  let esc0 := (db.incidents.filter (fun i => i.current_step = 0 ∧ i.active)).foldl
    (fun e i => Iris.aset e i.id (i.plan_id, 1)) []
  let ph2 := (queueRows c db now).foldl
    (fun (p : List (Nat × Nat × Nat) × List NewMsg) n =>
      match handleQueueRow c n with
      | (none, msgs) => (p.1, p.2 ++ msgs)
      | (some e, _) => (Iris.aset p.1 n.incident_id e, p.2))
    (esc0, [])
  let fin := ph2.1.foldl
    (fun (p : List NewMsg × List (Nat × IncidentUpdate)) ent =>
      let r := processEscalation c ent.1 ent.2.1 ent.2.2
      (p.1 ++ r.2, p.2 ++ [(ent.1, r.1)]))
    (ph2.2, [])
  ⟨ph2.1, fin.1, fin.2⟩

/-- A group of `INACTIVE_SQL`'s innermost query (lines 50-70): key
`(incident_id, plan_notification_id, target_id)`; `age` is
`TIMESTAMPDIFF` from `MAX(sent)` (line 55), NULL when no message of the
group was ever sent (MySQL `MAX` ignores NULLs). -/
structure DInner where
  incident_id : Nat
  plan_notification_id : Nat
  count : Nat
  age : Option Int
deriving DecidableEq, Repr

/-- Join rows of `INACTIVE_SQL`'s innermost query (lines 63-69):
active incidents sitting at their plan's final step, messages of
plan_notifications of that step. -/
def inactiveJoin (c : Caches) (db : DB) : List Message :=
  db.messages.filter fun m =>
    match incidentById db m.incident_id with
    | some i => i.active ∧ i.current_step = (c.plans m.plan_id).step_count ∧
        (c.plan_notifications m.plan_notification_id).step = i.current_step
    | none => false

def maxSent (G : List Message) : Option Int :=
  G.foldl
    (fun a m =>
      match a, m.sent with
      | none, s => s
      | some x, none => some x
      | some x, some y => some (if x < y then y else x))
    none

def inactiveInnerRow (c : Caches) (db : DB) (now : Int) (k : Nat × Nat × Nat) :
    DInner :=
  let G := (inactiveJoin c db).filter fun m =>
    (m.incident_id, m.plan_notification_id, m.target_id) = k
  { incident_id := k.1
    plan_notification_id := k.2.1
    count := G.length
    age := (maxSent G).map (fun s => now - s) }

def inactiveInner (c : Caches) (db : DB) (now : Int) : List DInner :=
  (firstKeys (fun m => (m.incident_id, m.plan_notification_id, m.target_id))
    (inactiveJoin c db)).map (inactiveInnerRow c db now)

/-- The middle `GROUP BY incident_id, plan_notification_id` with
`HAVING max_count = max AND BIT_AND(age > wait) = 1` (lines 72-73).
MySQL's `BIT_AND` skips NULL inputs and yields the all-ones word on an
empty input, which fails the `= 1` test, so the condition holds exactly
when at least one group has a non-NULL age and every non-NULL age
exceeds `wait`. -/
def exhaustedGroup (c : Caches) (R : List DInner) (pnid : Nat) : Bool :=
  match R with
  | [] => false
  | r :: rs =>
    let pn := c.plan_notifications pnid
    let maxCount := rs.foldl (fun a g => Nat.max a g.count) r.count
    let ages := (R.filterMap (·.age)).map (fun a => decide (pn.wait < a))
    maxCount = pn.repeat_count + 1 ∧ ¬ ages.isEmpty ∧ ages.all (· = true)

/-- `SELECT DISTINCT incident_id FROM … exhausted_incidents` (lines
42-74). -/
def exhaustedIncidents (c : Caches) (db : DB) (now : Int) : List Nat :=
  firstKeys id
    (((firstKeys (fun r => (r.incident_id, r.plan_notification_id))
        (inactiveInner c db now)).filter fun k2 =>
      exhaustedGroup c
        ((inactiveInner c db now).filter
          (fun r => (r.incident_id, r.plan_notification_id) = k2)) k2.2).map
      (·.1))

/-- `deactivate` (lines 288-301): run `INACTIVE_SQL`, which clears
`active` on every incident in the exhausted set. -/
def deactivate (c : Caches) (db : DB) (now : Int) : DB :=
  { db with
    incidents := db.incidents.map fun i =>
      if i.id ∈ exhaustedIncidents c db now then { i with active := false }
      else i }

/-- Declarative reading of one middle group of `INACTIVE_SQL`, stated
over raw message filters for the bridge theorem: the plan_notification
has at least one message row at the final step, the largest per-target
message count equals `repeat + 1`, some per-target group has a sent
message, and every per-target group that has one was last sent more
than `wait` seconds ago. -/
def pnExhausted (c : Caches) (db : DB) (now : Int) (iid pnid : Nat) : Prop :=
  let M := (inactiveJoin c db).filter fun m =>
    m.incident_id = iid ∧ m.plan_notification_id = pnid
  let pn := c.plan_notifications pnid
  let tcount := fun tid => (M.filter (fun m => m.target_id = tid)).length
  M ≠ [] ∧
  (∃ m ∈ M, tcount m.target_id = pn.repeat_count + 1) ∧
  (∀ m ∈ M, tcount m.target_id ≤ pn.repeat_count + 1) ∧
  (∃ m ∈ M, (maxSent (M.filter (fun m2 => m2.target_id = m.target_id))).isSome) ∧
  (∀ m ∈ M, ∀ a, maxSent (M.filter (fun m2 => m2.target_id = m.target_id)) = some a →
    pn.wait < now - a)

/-- Example caches for the escalation claims: role `oncall` of team `t`
expands to the two resolvable names `alice` and `bob`; pn 5 repeats
(max 3) on plan 10 (2 steps); pn 6 (step 1 of plan 11) targets role
`ghost` expanding to `nobody`, which is not in `target_names`; pn 7 and
pn 8 are the two final-step notifications of plan 12 used for the
deactivation counterexample. -/
def exCaches : Caches where
  incidents_app := fun _ => 77
  plan_notifications := fun pnid =>
    if pnid = 5 then
      { id := 5, plan_id := 10, role_id := 1, target_id := 2,
        priority_id := 8, step := 1, repeat_count := 2, wait := 0 }
    else if pnid = 6 then
      { id := 6, plan_id := 11, role_id := 3, target_id := 2,
        priority_id := 8, step := 1, repeat_count := 0, wait := 0 }
    else if pnid = 7 then
      { id := 7, plan_id := 12, role_id := 1, target_id := 2,
        priority_id := 8, step := 1, repeat_count := 0, wait := 0 }
    else if pnid = 8 then
      { id := 8, plan_id := 12, role_id := 1, target_id := 2,
        priority_id := 8, step := 1, repeat_count := 1, wait := 0 }
    else {}
  roles := fun rid => if rid = 1 then "oncall" else if rid = 3 then "ghost" else ""
  targets := fun tid => if tid = 2 then "t" else ""
  targets_for_role := fun role _ =>
    if role = "oncall" then ["alice", "bob"]
    else if role = "ghost" then ["nobody"]
    else []
  plans := fun pid =>
    if pid = 10 then { creator := some "carol", steps := fun s => if s = 1 then [5] else [], step_count := 2 }
    else if pid = 11 then { creator := some "carol", steps := fun s => if s = 1 then [6] else [], step_count := 1 }
    else if pid = 12 then { creator := some "carol", steps := fun s => if s = 1 then [7, 8] else [], step_count := 1 }
    else {}
  target_names := fun name =>
    if name = "alice" then some 21 else if name = "bob" then some 22
    else if name = "carol" then some 23 else none
  low_priority_id := some 1

/-- DB for the C1 counterexample: incident 1 is active at step 1 of plan
10 and carries one old message for pn 5, so `QUEUE_SQL` yields a
repeat row (`count = 1 < max = 3`). -/
def exDB1 : DB where
  messages :=
    [({ id := 100, incident_id := 1, plan_notification_id := 5,
        plan_id := 10, application_id := 77, target_id := 21, priority_id := 8,
        created := 0, sent := some 1 } : Message)]
  incidents := [{ id := 1, plan_id := 10, current_step := 1, active := true }]

/-- DB for the C2 counterexample: incident 2 is active at the final step
of plan 12.  pn 7 (max 1) is exhausted: its one message was sent longer
than `wait` ago.  pn 8 (max 2) has only one message, so under the
claim's for-all reading the incident must stay active. -/
def exDB2 : DB where
  messages :=
    [{ id := 200, incident_id := 2, plan_notification_id := 7, plan_id := 12,
       application_id := 77, target_id := 21, priority_id := 8,
       created := 0, sent := some 0 },
     { id := 201, incident_id := 2, plan_notification_id := 8, plan_id := 12,
       application_id := 77, target_id := 21, priority_id := 8,
       created := 0, sent := some 0 }]
  incidents := [{ id := 2, plan_id := 12, current_step := 1, active := true }]

end Iris.Esc


/-!
# Theorems
-/

namespace Iris

theorem aget_aset_self {α β : Type} [DecidableEq α]
    (l : List (α × β)) (k : α) (v : β) : aget (aset l k v) k = some v := by
  induction l with
  | nil => simp [aget, aset]
  | cons p t ih =>
    by_cases hp : p.1 = k
    · simp [aget, aset, hp]
    · simp [aget, aset, hp, ih]

theorem aget_aset_ne {α β : Type} [DecidableEq α]
    (l : List (α × β)) (k k' : α) (v : β) (h : k ≠ k') :
    aget (aset l k v) k' = aget l k' := by
  induction l with
  | nil => simp [aget, aset, h]
  | cons p t ih =>
    by_cases hp : p.1 = k
    · simp [aget, aset, hp, h, Ne.symm h]
    · by_cases hp' : p.1 = k'
      · simp [aget, aset, hp, hp', h, Ne.symm h]
      · simp [aget, aset, hp, hp', ih]

theorem aget_aerase_self {α β : Type} [DecidableEq α]
    (l : List (α × β)) (k : α) : aget (aerase l k) k = none := by
  induction l with
  | nil => simp [aget, aerase]
  | cons p t ih =>
    by_cases hp : p.1 = k
    · simp [aerase, hp, ih]
    · simp [aget, aerase, hp, ih]

theorem aget_aerase_ne {α β : Type} [DecidableEq α]
    (l : List (α × β)) (k k' : α) (h : k ≠ k') :
    aget (aerase l k) k' = aget l k' := by
  induction l with
  | nil => simp [aerase]
  | cons p t ih =>
    by_cases hp : p.1 = k
    · have hp' : ¬ p.1 = k' := by rw [hp]; exact h
      simp [aget, aerase, hp, hp', ih, h, Ne.symm h]
    · by_cases hp' : p.1 = k'
      · simp [aget, aerase, hp, hp', h, Ne.symm h]
      · simp [aget, aerase, hp, hp', ih]

end Iris

namespace Iris.Auth

/-- **C8.** A non-GET (or non-read-only) request with a well-formed
`Authorization: hmac app:digest` header for a known application is
authenticated iff the supplied digest equals the signature of
`'<window> <method> <path>[?qs] <body>'` for the current 5-second window
`nowSec / 5` or the previous one; otherwise it is rejected with 401.
Moreover, assuming signatures of distinct windows are distinct, a digest
computed for window `t - 1` is only ever accepted at times
`nowSec < 5 * t + 5`, i.e. within 5 seconds of the start of window `t`. -/
theorem c8_hmac_auth_window
    (sign : String → String → String) (applications : String → Option App)
    (nowSec : Int) (aro : Bool) (req : Req)
    (authStr appName clientDigest : String) (app : App)
    (hro : ¬ (aro = true ∧ req.method = "GET"))
    (ha : req.auth = some authStr)
    (hparse : parseAuthHeader authStr = some (appName, clientDigest))
    (happ : applications appName = some app) :
    (process_resource sign applications nowSec aro req = .allowed (some app) ↔
      (clientDigest =
          sign app.key (hmacText (nowSec / 5) req.method (reqPath req) req.body) ∨
        clientDigest =
          sign app.key (hmacText (nowSec / 5 - 1) req.method (reqPath req) req.body))) ∧
    (process_resource sign applications nowSec aro req = .unauthorized ↔
      ¬ (clientDigest =
          sign app.key (hmacText (nowSec / 5) req.method (reqPath req) req.body) ∨
        clientDigest =
          sign app.key (hmacText (nowSec / 5 - 1) req.method (reqPath req) req.body))) ∧
    (∀ t : Int,
      clientDigest = sign app.key (hmacText (t - 1) req.method (reqPath req) req.body) →
      (∀ w : Int,
        sign app.key (hmacText w req.method (reqPath req) req.body) =
          sign app.key (hmacText (t - 1) req.method (reqPath req) req.body) →
        w = t - 1) →
      (∃ a, process_resource sign applications nowSec aro req = .allowed a) →
      nowSec < 5 * t + 5) := by
  have hdiv : 5 * (nowSec / 5) + nowSec % 5 = nowSec := Int.ediv_add_emod nowSec 5
  have hmod0 : 0 ≤ nowSec % 5 := Int.emod_nonneg nowSec (by norm_num)
  have hmod5 : nowSec % 5 < 5 := Int.emod_lt_of_pos nowSec (by norm_num)
  have hbase :
      process_resource sign applications nowSec aro req =
        (if clientDigest =
            sign app.key (hmacText (nowSec / 5) req.method (reqPath req) req.body) then
          .allowed (some app)
        else if clientDigest =
            sign app.key (hmacText (nowSec / 5 - 1) req.method (reqPath req) req.body) then
          .allowed (some app)
        else .unauthorized) := by
    unfold process_resource
    rw [if_neg hro, ha]
    simp only [hparse, happ]
  refine ⟨?_, ?_, ?_⟩
  · rw [hbase]
    constructor
    · intro hres
      by_cases h1 : clientDigest =
          sign app.key (hmacText (nowSec / 5) req.method (reqPath req) req.body)
      · exact Or.inl h1
      · by_cases h2 : clientDigest =
            sign app.key (hmacText (nowSec / 5 - 1) req.method (reqPath req) req.body)
        · exact Or.inr h2
        · rw [if_neg h1, if_neg h2] at hres
          exact absurd hres (by simp)
    · rintro (h1 | h2)
      · rw [if_pos h1]
      · by_cases h1 : clientDigest =
            sign app.key (hmacText (nowSec / 5) req.method (reqPath req) req.body)
        · rw [if_pos h1]
        · rw [if_neg h1, if_pos h2]
  · rw [hbase]
    constructor
    · intro hres h12
      rcases h12 with h1 | h2
      · rw [if_pos h1] at hres
        exact absurd hres (by simp)
      · by_cases h1 : clientDigest =
            sign app.key (hmacText (nowSec / 5) req.method (reqPath req) req.body)
        · rw [if_pos h1] at hres
          exact absurd hres (by simp)
        · rw [if_neg h1, if_pos h2] at hres
          exact absurd hres (by simp)
    · intro h12
      push_neg at h12
      rw [if_neg h12.1, if_neg h12.2]
  · intro t hd hinj hacc
    obtain ⟨a, hres⟩ := hacc
    rw [hbase] at hres
    by_cases h1 : clientDigest =
        sign app.key (hmacText (nowSec / 5) req.method (reqPath req) req.body)
    · have := hinj (nowSec / 5) (hd ▸ h1.symm)
      omega
    · by_cases h2 : clientDigest =
          sign app.key (hmacText (nowSec / 5 - 1) req.method (reqPath req) req.body)
      · have := hinj (nowSec / 5 - 1) (hd ▸ h2.symm)
        omega
      · rw [if_neg h1, if_neg h2] at hres
        exact absurd hres (by simp)

/-- Witness for C8: concrete request signed for window 3, checked at
`nowSec = 16` (window 3), with every hypothesis discharged concretely. -/
theorem c8_hmac_auth_window_witness :
    (process_resource exSign exApps 16 false exReq = .allowed (some ⟨"KEY"⟩) ↔
      ("KEY|3 POST /v0/incidents {}" =
          exSign "KEY" (hmacText (16 / 5) "POST" (reqPath exReq) "{}") ∨
        "KEY|3 POST /v0/incidents {}" =
          exSign "KEY" (hmacText (16 / 5 - 1) "POST" (reqPath exReq) "{}"))) ∧
    (process_resource exSign exApps 16 false exReq = .unauthorized ↔
      ¬ ("KEY|3 POST /v0/incidents {}" =
          exSign "KEY" (hmacText (16 / 5) "POST" (reqPath exReq) "{}") ∨
        "KEY|3 POST /v0/incidents {}" =
          exSign "KEY" (hmacText (16 / 5 - 1) "POST" (reqPath exReq) "{}"))) ∧
    (∀ t : Int,
      "KEY|3 POST /v0/incidents {}" =
        exSign "KEY" (hmacText (t - 1) "POST" (reqPath exReq) "{}") →
      (∀ w : Int,
        exSign "KEY" (hmacText w "POST" (reqPath exReq) "{}") =
          exSign "KEY" (hmacText (t - 1) "POST" (reqPath exReq) "{}") →
        w = t - 1) →
      (∃ a, process_resource exSign exApps 16 false exReq = .allowed a) →
      (16 : Int) < 5 * t + 5) :=
  c8_hmac_auth_window exSign exApps 16 false exReq
    "hmac app1:KEY|3 POST /v0/incidents {}" "app1" "KEY|3 POST /v0/incidents {}"
    ⟨"KEY"⟩ (by simp) rfl (by decide) (by decide)

end Iris.Auth

namespace Iris.Loop

theorem tickEvents_explicit (t0 : Nat) (tt : Nat → TickTiming) (n : Nat) :
    tickEvents t0 tt n =
      let s := tickStart t0 tt n + (tt n).pre
      let d := (tt n).dur
      [(Phase.escalate, s, s + d .escalate),
       (Phase.deactivate, s + d .escalate, s + d .escalate + d .deactivate),
       (Phase.poll, s + d .escalate + d .deactivate,
         s + d .escalate + d .deactivate + d .poll),
       (Phase.aggregate, s + d .escalate + d .deactivate + d .poll,
         s + d .escalate + d .deactivate + d .poll + d .aggregate)] := by
  simp [tickEvents, schedule, masterPhases]

theorem tickEvents_bounds (t0 : Nat) (tt : Nat → TickTiming) (n : Nat) :
    ∀ e ∈ tickEvents t0 tt n,
      tickStart t0 tt n ≤ e.2.1 ∧ e.2.2 ≤ tickStart t0 tt n + (tt n).elapsed := by
  intro e he
  rw [tickEvents_explicit] at he
  simp only [List.mem_cons, List.mem_singleton] at he
  have helapsed : (tt n).elapsed =
      (tt n).pre + (tt n).dur .escalate + (tt n).dur .deactivate +
        (tt n).dur .poll + (tt n).dur .aggregate + (tt n).post := rfl
  rcases he with h | h | h | h | h
  · subst h; constructor <;> simp <;> omega
  · subst h; constructor <;> simp <;> omega
  · subst h; constructor <;> simp <;> omega
  · subst h; constructor <;> simp <;> omega
  · simp at h

theorem tickStart_le_succ (t0 : Nat) (tt : Nat → TickTiming) (n : Nat) :
    tickStart t0 tt n + (tt n).elapsed ≤ tickStart t0 tt (n + 1) := by
  simp [tickStart]

theorem tickStart_mono (t0 : Nat) (tt : Nat → TickTiming) {m n : Nat}
    (h : m ≤ n) : tickStart t0 tt m ≤ tickStart t0 tt n := by
  induction n with
  | zero => simp_all
  | succ k ih =>
    rcases Nat.lt_or_ge m (k + 1) with hlt | hge
    · have := ih (Nat.lt_succ_iff.mp hlt)
      have h2 : tickStart t0 tt k ≤ tickStart t0 tt (k + 1) := by
        simp only [tickStart]
        omega
      omega
    · have : m = k + 1 := Nat.le_antisymm h hge
      simp [this]

/-- **C9.** In every master loop iteration the four maintenance phases
run as escalate, then deactivate, then poll, then aggregate, each
starting exactly when the previous finishes (serial), events of distinct
iterations never overlap, and when an iteration's work fits in the
60-second interval the next iteration starts exactly 60 seconds after it
(`sleep(max(0, 60 - elapsed))`). -/
theorem c9_master_tick_order (t0 : Nat) (tt : Nat → TickTiming) :
    (∀ n, (tickEvents t0 tt n).map Prod.fst =
      [Phase.escalate, Phase.deactivate, Phase.poll, Phase.aggregate]) ∧
    (∀ n, List.Chain' (fun a b => a.2.2 = b.2.1) (tickEvents t0 tt n) ∧
      ∀ e ∈ tickEvents t0 tt n, e.2.1 ≤ e.2.2) ∧
    (∀ m n, m < n → ∀ e ∈ tickEvents t0 tt m, ∀ e' ∈ tickEvents t0 tt n,
      e.2.2 ≤ e'.2.1) ∧
    (∀ n, (tt n).elapsed ≤ 60 →
      tickStart t0 tt (n + 1) = tickStart t0 tt n + 60) := by
  refine ⟨?_, ?_, ?_, ?_⟩
  · intro n
    rw [tickEvents_explicit]
    simp
  · intro n
    rw [tickEvents_explicit]
    constructor
    · simp [List.Chain']
    · intro e he
      simp only [List.mem_cons, List.mem_singleton] at he
      rcases he with h | h | h | h | h
      · subst h; simp
      · subst h; simp
      · subst h; simp
      · subst h; simp
      · simp at h
  · intro m n hmn e he e' he'
    have h1 := (tickEvents_bounds t0 tt m e he).2
    have h2 := (tickEvents_bounds t0 tt n e' he').1
    have h3 := tickStart_le_succ t0 tt m
    have h4 := tickStart_mono t0 tt (m := m + 1) (n := n) hmn
    omega
  · intro n h
    simp [tickStart, napTime]
    omega

/-- Witness for C9 at a concrete timing profile (every phase takes 2
seconds, 1 second of cache refresh, 3 seconds of bookkeeping): the first
iteration's phases are in order and the second iteration starts exactly
at t = 60. -/
theorem c9_master_tick_order_witness :
    (tickEvents 0 exTT 0).map Prod.fst =
      [Phase.escalate, Phase.deactivate, Phase.poll, Phase.aggregate] ∧
    tickStart 0 exTT 1 = tickStart 0 exTT 0 + 60 :=
  ⟨(c9_master_tick_order 0 exTT).1 0,
   (c9_master_tick_order 0 exTT).2.2.2 0 (by decide)⟩

end Iris.Loop

namespace Iris

theorem aerase_sublist {α β : Type} [DecidableEq α]
    (l : List (α × β)) (k : α) : (aerase l k).Sublist l := by
  induction l with
  | nil => simp [aerase]
  | cons p t ih =>
    by_cases hp : p.1 = k
    · simp only [aerase, hp, if_pos]
      exact ih.cons p
    · simp only [aerase, hp, if_neg, ite_false]
      exact ih.cons₂ p

theorem mem_of_mem_aerase {α β : Type} [DecidableEq α]
    {l : List (α × β)} {k : α} {p : α × β} (h : p ∈ aerase l k) : p ∈ l :=
  (aerase_sublist l k).mem h

theorem aget_isSome_of_mem_keys {α β : Type} [DecidableEq α]
    {l : List (α × β)} {k : α} (h : k ∈ l.map Prod.fst) :
    (aget l k).isSome := by
  induction l with
  | nil => simp at h
  | cons p t ih =>
    by_cases hp : p.1 = k
    · simp [aget, hp]
    · simp only [List.map_cons, List.mem_cons] at h
      rcases h with h | h
    -- the head key is not k
      · exact absurd h.symm hp
      · simp only [aget, hp, if_neg, ite_false]
        exact ih h

theorem mem_of_aget_eq_some {α β : Type} [DecidableEq α]
    {l : List (α × β)} {k : α} {v : β} (h : aget l k = some v) :
    (k, v) ∈ l := by
  induction l with
  | nil => simp [aget] at h
  | cons p t ih =>
    by_cases hp : p.1 = k
    · simp only [aget, hp, if_pos, Option.some.injEq] at h
      have : (k, v) = p := by
        calc (k, v) = (p.1, p.2) := by rw [hp, h]
          _ = p := rfl
      rw [this]
      exact List.mem_cons_self p t
    · simp only [aget, hp, if_neg, ite_false] at h
      exact List.mem_cons_of_mem p (ih h)

theorem aget_eq_none_of_not_mem_keys {α β : Type} [DecidableEq α]
    {l : List (α × β)} {k : α} (h : k ∉ l.map Prod.fst) :
    aget l k = none := by
  induction l with
  | nil => simp [aget]
  | cons p t ih =>
    simp only [List.map_cons, List.mem_cons, not_or] at h
    simp only [aget, Ne.symm h.1, if_neg, ite_false]
    exact ih h.2

theorem aerase_cons_head {α β : Type} [DecidableEq α]
    {p : α × β} {t : List (α × β)}
    (hp : p.1 ∉ t.map Prod.fst) : aerase (p :: t) p.1 = t := by
  simp only [aerase, if_pos]
  induction t with
  | nil => simp [aerase]
  | cons q r ih =>
    simp only [List.map_cons, List.mem_cons, not_or] at hp
    simp only [aerase, Ne.symm hp.1, if_neg, ite_false]
    rw [ih hp.2]

theorem ne_of_mem_aerase {α β : Type} [DecidableEq α]
    {l : List (α × β)} {k : α} {p : α × β} (h : p ∈ aerase l k) :
    p.1 ≠ k := by
  induction l with
  | nil => simp [aerase] at h
  | cons q t ih =>
    by_cases hq : q.1 = k
    · simp only [aerase, hq, if_pos] at h
      exact ih h
    · simp only [aerase, hq, if_neg, ite_false, List.mem_cons] at h
      rcases h with h | h
      · rw [h]; exact hq
      · exact ih h

theorem mem_keys_of_aget_isSome {α β : Type} [DecidableEq α]
    {l : List (α × β)} {k : α} (h : (aget l k).isSome) :
    k ∈ l.map Prod.fst := by
  induction l with
  | nil => simp [aget] at h
  | cons p t ih =>
    by_cases hp : p.1 = k
    · simp [hp]
    · simp only [aget, hp, if_neg, ite_false] at h
      simp only [List.map_cons, List.mem_cons]
      exact Or.inr (ih h)

end Iris

namespace Iris.Agg

theorem delMsgs_spec (msgs : List (Nat × AggMsg)) (ids : List Nat)
    (hnd : ids.Nodup) (hpres : ∀ i ∈ ids, (aget msgs i).isSome) :
    ∃ msgs', delMsgs msgs ids = some msgs' ∧
      (∀ i ∈ ids, aget msgs' i = none) ∧
      (∀ j, j ∉ ids → aget msgs' j = aget msgs j) := by
  induction ids generalizing msgs with
  | nil => exact ⟨msgs, rfl, by simp, fun j _ => rfl⟩
  | cons i t ih =>
    have hi := hpres i (List.mem_cons_self i t)
    rw [Option.isSome_iff_exists] at hi
    obtain ⟨m, hm⟩ := hi
    have hnd' := List.nodup_cons.mp hnd
    have hpres' : ∀ j ∈ t, (aget (aerase msgs i) j).isSome := by
      intro j hj
      rw [aget_aerase_ne msgs i j (fun he => hnd'.1 (he ▸ hj))]
      exact hpres j (List.mem_cons_of_mem i hj)
    obtain ⟨msgs', hdel, habs, hkeep⟩ := ih (aerase msgs i) hnd'.2 hpres'
    refine ⟨msgs', ?_, ?_, ?_⟩
    · simp only [delMsgs, hm]
      exact hdel
    · intro x hx
      rcases List.mem_cons.mp hx with h | h
      · subst h
        rw [hkeep x hnd'.1]
        exact aget_aerase_self msgs x
      · exact habs x h
    · intro j hj
      simp only [List.mem_cons, not_or] at hj
      rw [hkeep j hj.2]
      exact aget_aerase_ne msgs i j (fun he => hj.1 he.symm)

theorem aggregateKey_noflush (plans : Nat → Option AggPlan)
    (activeDb : Nat → Bool) (now : Int) (uuid : String) (st : AggState)
    (k : Key) (plan : AggPlan)
    (hplan : plans k.1 = some plan)
    (hcond : ¬ now - ((aget st.sent k).getD 0) ≥ plan.aggregation_window) :
    aggregateKey plans activeDb now uuid st k = some st := by
  unfold aggregateKey
  rw [hplan]
  simp only [if_neg hcond]

theorem aggregateKey_flush (plans : Nat → Option AggPlan)
    (activeDb : Nat → Bool) (now : Int) (uuid : String) (st : AggState)
    (k : Key) (plan : AggPlan) (qs : List Nat)
    (hplan : plans k.1 = some plan)
    (hq : aget st.queues k = some qs)
    (hcond : now - ((aget st.sent k).getD 0) ≥ plan.aggregation_window)
    (hnd : qs.Nodup)
    (hpres : ∀ i ∈ qs, ∃ m, aget st.messages i = some m ∧ msgKey m = some k) :
    ∃ st', aggregateKey plans activeDb now uuid st k = some st' ∧
      st'.queues = aerase st.queues k ∧
      st'.sent = aset st.sent k now ∧
      st'.windows = st.windows ∧
      st'.aggregation = st.aggregation ∧
      st'.audit = st.audit ∧
      (∀ i ∈ qs, aget st'.messages i = none) ∧
      (∀ j, j ∉ qs → aget st'.messages j = aget st.messages j) ∧
      ((qs.filter (fun x => activeDb x) = [] → st'.sendQueue = st.sendQueue) ∧
       (∀ i, qs.filter (fun x => activeDb x) = [i] →
         ∃ m, aget st.messages i = some m ∧ msgKey m = some k ∧
           st'.sendQueue = st.sendQueue ++ [m]) ∧
       (∀ i j rest, qs.filter (fun x => activeDb x) = i :: j :: rest →
         ∃ m, aget st.messages i = some m ∧ msgKey m = some k ∧
           st'.sendQueue = st.sendQueue ++
             [{ m with batch_id := some uuid,
                       aggregated_ids := some (qs.filter (fun x => activeDb x)) }])) := by
  have hndI : (qs.filter (fun i => !(activeDb i))).Nodup := hnd.filter _
  have hpresI : ∀ i ∈ qs.filter (fun i => !(activeDb i)), (aget st.messages i).isSome := by
    intro i hiI
    obtain ⟨m, hm, _⟩ := hpres i (List.mem_of_mem_filter hiI)
    simp [hm]
  obtain ⟨msgs1, hdel1, habs1, hkeep1⟩ :=
    delMsgs_spec st.messages (qs.filter (fun i => !(activeDb i))) hndI hpresI
  rcases hA : qs.filter (fun x => activeDb x) with _ | ⟨i, _ | ⟨j, rest⟩⟩
  · -- no active id remains: nothing is enqueued
    have hst' : aggregateKey plans activeDb now uuid st k =
        some { st with messages := msgs1, queues := aerase st.queues k,
                       sent := aset st.sent k now } := by
      unfold aggregateKey
      rw [hplan]
      simp only [if_pos hcond, hq, hdel1, hA]
    refine ⟨_, hst', rfl, rfl, rfl, rfl, rfl, ?_, ?_, ?_, ?_, ?_⟩
    · intro x hx
      have hxI : x ∈ qs.filter (fun i => !(activeDb i)) := by
        rcases hb : activeDb x with _ | _
        · simp [List.mem_filter, hx, hb]
        · exfalso
          have : x ∈ qs.filter (fun x => activeDb x) := by
            simp [List.mem_filter, hx, hb]
          rw [hA] at this
          exact absurd this (List.not_mem_nil x)
      exact habs1 x hxI
    · intro j hj
      exact hkeep1 j (fun hc => hj (List.mem_of_mem_filter hc))
    · intro _
      rfl
    · intro x hx
      exact absurd hx (by simp)
    · intro x y r hxy
      exact absurd hxy (by simp)
  · -- exactly one active id: the single message is enqueued, no batch
    have hiA : i ∈ qs.filter (fun x => activeDb x) := by rw [hA]; simp
    have hiqs := List.mem_of_mem_filter hiA
    have hiact : activeDb i = true := by
      have := List.of_mem_filter hiA
      simpa using this
    have hiNotI : i ∉ qs.filter (fun x => !(activeDb x)) := by
      intro hc
      have := List.of_mem_filter hc
      simp [hiact] at this
    obtain ⟨m, hm, hkey⟩ := hpres i hiqs
    have hm1 : aget msgs1 i = some m := by rw [hkeep1 i hiNotI]; exact hm
    have hst' : aggregateKey plans activeDb now uuid st k =
        some { st with messages := aerase msgs1 i, queues := aerase st.queues k,
                       sent := aset st.sent k now,
                       sendQueue := st.sendQueue ++ [m] } := by
      unfold aggregateKey
      rw [hplan]
      simp only [if_pos hcond, hq, hdel1, hA, hm1]
    refine ⟨_, hst', rfl, rfl, rfl, rfl, rfl, ?_, ?_, ?_, ?_, ?_⟩
    · intro x hx
      rcases hb : activeDb x with _ | _
      · have hxI : x ∈ qs.filter (fun i => !(activeDb i)) := by
          simp [List.mem_filter, hx, hb]
        have hxne : x ≠ i := fun he => by rw [he] at hb; rw [hiact] at hb; cases hb
        show aget (aerase msgs1 i) x = none
        rw [aget_aerase_ne msgs1 i x (fun he => hxne he.symm)]
        exact habs1 x hxI
      · have hxA : x ∈ qs.filter (fun x => activeDb x) := by
          simp [List.mem_filter, hx, hb]
        rw [hA] at hxA
        have hxi : x = i := by simpa using hxA
        subst hxi
        show aget (aerase msgs1 x) x = none
        exact aget_aerase_self msgs1 x
    · intro j hj
      have hjne : j ≠ i := fun he => hj (he ▸ hiqs)
      show aget (aerase msgs1 i) j = aget st.messages j
      rw [aget_aerase_ne msgs1 i j (fun he => hjne he.symm)]
      exact hkeep1 j (fun hc => hj (List.mem_of_mem_filter hc))
    · intro h0
      exact absurd h0 (by simp)
    · intro x hx
      have hxi : x = i := by simpa using hx.symm
      subst hxi
      exact ⟨m, hm, hkey, rfl⟩
    · intro x y r hxy
      simp at hxy
  · -- two or more active ids: a batch representative is enqueued
    have hiA : i ∈ qs.filter (fun x => activeDb x) := by rw [hA]; simp
    have hiqs := List.mem_of_mem_filter hiA
    have hiact : activeDb i = true := by
      have := List.of_mem_filter hiA
      simpa using this
    have hiNotI : i ∉ qs.filter (fun x => !(activeDb x)) := by
      intro hc
      have := List.of_mem_filter hc
      simp [hiact] at this
    obtain ⟨m, hm, hkey⟩ := hpres i hiqs
    have hm1 : aget msgs1 i = some m := by rw [hkeep1 i hiNotI]; exact hm
    have hndA : (qs.filter (fun x => activeDb x)).Nodup := hnd.filter _
    have hpresA : ∀ x ∈ qs.filter (fun x => activeDb x), (aget msgs1 x).isSome := by
      intro x hxA
      have hxact : activeDb x = true := by
        have := List.of_mem_filter hxA
        simpa using this
      have hxNotI : x ∉ qs.filter (fun i => !(activeDb i)) := by
        intro hc
        have := List.of_mem_filter hc
        simp [hxact] at this
      rw [hkeep1 x hxNotI]
      obtain ⟨mm, hmm, _⟩ := hpres x (List.mem_of_mem_filter hxA)
      simp [hmm]
    obtain ⟨msgs2, hdel2, habs2, hkeep2⟩ :=
      delMsgs_spec msgs1 (qs.filter (fun x => activeDb x)) hndA hpresA
    have hdel2' : delMsgs msgs1 (i :: j :: rest) = some msgs2 := by
      rw [← hA]
      exact hdel2
    have hst' : aggregateKey plans activeDb now uuid st k =
        some { st with messages := msgs2, queues := aerase st.queues k,
                       sent := aset st.sent k now,
                       sendQueue := st.sendQueue ++
                         [({ m with batch_id := some uuid,
                                    aggregated_ids := some (i :: j :: rest) } : AggMsg)] } := by
      unfold aggregateKey
      rw [hplan]
      simp only [if_pos hcond, hq, hdel1, hA, hm1, hdel2']
    refine ⟨_, hst', rfl, rfl, rfl, rfl, rfl, ?_, ?_, ?_, ?_, ?_⟩
    · intro x hx
      rcases hb : activeDb x with _ | _
      · have hxI : x ∈ qs.filter (fun i => !(activeDb i)) := by
          simp [List.mem_filter, hx, hb]
        have hxNotA : x ∉ qs.filter (fun x => activeDb x) := by
          intro hc
          have := List.of_mem_filter hc
          simp [hb] at this
        show aget msgs2 x = none
        rw [hkeep2 x hxNotA]
        exact habs1 x hxI
      · have hxA : x ∈ qs.filter (fun x => activeDb x) := by
          simp [List.mem_filter, hx, hb]
        exact habs2 x hxA
    · intro j' hj
      show aget msgs2 j' = aget st.messages j'
      rw [hkeep2 j' (fun hc => hj (List.mem_of_mem_filter hc))]
      exact hkeep1 j' (fun hc => hj (List.mem_of_mem_filter hc))
    · intro h0
      exact absurd h0 (by simp)
    · intro x hx
      simp at hx
    · intro x y r hxy
      have hxi : x = i := by
        have := congrArg (fun l => l.head?) hxy
        simpa using this.symm
      subst hxi
      exact ⟨m, hm, hkey, rfl⟩

theorem map_msgKey_some {msgs : List (Nat × AggMsg)} {i : Nat} {k : Key}
    (h : (aget msgs i).map msgKey = some (some k)) :
    ∃ m, aget msgs i = some m ∧ msgKey m = some k := by
  cases hm : aget msgs i with
  | none => rw [hm] at h; simp at h
  | some m => rw [hm] at h; exact ⟨m, rfl, by simpa using h⟩

theorem msgKey_batch (m : AggMsg) (u : String) (ids : List Nat) :
    msgKey { m with batch_id := some u, aggregated_ids := some ids } = msgKey m :=
  rfl

theorem aggregateGo_spec (plans : Nat → Option AggPlan) (activeDb : Nat → Bool)
    (now : Int) (uuid : Nat → String) :
    ∀ (keys : List Key) (i0 : Nat) (st : AggState),
      WF st →
      keys.Nodup →
      (∀ k ∈ keys, k ∈ st.queues.map Prod.fst) →
      (∀ p ∈ st.queues, (plans p.1.1).isSome) →
      ∃ final L, aggregateGo plans activeDb now uuid keys i0 st = some final ∧
        final.sendQueue = st.sendQueue ++ L ∧
        (∀ q ∈ L, ∃ k ∈ keys, msgKey q = some k) ∧
        (∀ K, K ∉ keys → aget final.queues K = aget st.queues K ∧
          aget final.sent K = aget st.sent K) ∧
        (∀ j, aget st.messages j = none → aget final.messages j = none) ∧
        (∀ K qs plan, K ∈ keys → aget st.queues K = some qs →
          plans K.1 = some plan →
          now - ((aget st.sent K).getD 0) ≥ plan.aggregation_window →
          aget final.queues K = none ∧
          aget final.sent K = some now ∧
          (∀ x ∈ qs, aget final.messages x = none) ∧
          ((qs.filter (fun x => activeDb x) = [] →
             L.filter (fun q => msgKey q = some K) = []) ∧
           (∀ x, qs.filter (fun y => activeDb y) = [x] →
             ∃ m, aget st.messages x = some m ∧
               L.filter (fun q => msgKey q = some K) = [m]) ∧
           (∀ x y r, qs.filter (fun z => activeDb z) = x :: y :: r →
             ∃ m u, aget st.messages x = some m ∧
               L.filter (fun q => msgKey q = some K) =
                 [({ m with batch_id := some u,
                            aggregated_ids :=
                              some (qs.filter (fun z => activeDb z)) } :
                   AggMsg)]))) := by
  intro keys
  induction keys with
  | nil =>
    intro i0 st hwf _ _ _
    refine ⟨st, [], rfl, by simp, by simp, fun K _ => ⟨rfl, rfl⟩,
            fun j h => h, ?_⟩
    intro K qs plan hK
    exact absurd hK (List.not_mem_nil K)
  | cons k ks ih =>
    intro i0 st hwf hnd hkeys hplans
    obtain ⟨hndK, hndQ, hdisj, hmsg⟩ := hwf
    have hndc := List.nodup_cons.mp hnd
    have hkmem : k ∈ st.queues.map Prod.fst := hkeys k (List.mem_cons_self k ks)
    obtain ⟨qs, hq⟩ := Option.isSome_iff_exists.mp (aget_isSome_of_mem_keys hkmem)
    have hmemq : (k, qs) ∈ st.queues := mem_of_aget_eq_some hq
    obtain ⟨plan, hplan⟩ := Option.isSome_iff_exists.mp (hplans (k, qs) hmemq)
    by_cases hcond : now - ((aget st.sent k).getD 0) ≥ plan.aggregation_window
    · -- key k flushes
      obtain ⟨st', hstep, hq', hs', hw', ha', haud', habs, hkeep, hout0, hout1, hout2⟩ :=
        aggregateKey_flush plans activeDb now (uuid i0) st k plan qs hplan hq hcond
          (hndQ (k, qs) hmemq)
          (fun i hi => map_msgKey_some (hmsg (k, qs) hmemq i hi))
      -- queued ids of other keys are untouched
      have hother : ∀ p ∈ st.queues, p.1 ≠ k → ∀ i ∈ p.2,
          aget st'.messages i = aget st.messages i := by
        intro p hp hpk i hi
        exact hkeep i (hdisj p hp (k, qs) hmemq hpk i hi)
      -- the flushed key's output and its attribution
      have hout : ∃ out, st'.sendQueue = st.sendQueue ++ out ∧
          (∀ q ∈ out, msgKey q = some k) ∧
          ((qs.filter (fun x => activeDb x) = [] → out = []) ∧
           (∀ x, qs.filter (fun y => activeDb y) = [x] →
             ∃ m, aget st.messages x = some m ∧ out = [m]) ∧
           (∀ x y r, qs.filter (fun z => activeDb z) = x :: y :: r →
             ∃ m, aget st.messages x = some m ∧
               out = [({ m with batch_id := some (uuid i0),
                                aggregated_ids :=
                                  some (qs.filter (fun z => activeDb z)) } :
                       AggMsg)])) := by
        rcases hsh : qs.filter (fun x => activeDb x) with _ | ⟨x, _ | ⟨y, r⟩⟩
        · refine ⟨[], by rw [hout0 hsh]; simp, by simp, fun _ => rfl, ?_, ?_⟩
          · intro x hx
            exact absurd hx (by simp)
          · intro x y r hxy
            exact absurd hxy (by simp)
        · obtain ⟨m, hm, hkeym, hsq⟩ := hout1 x hsh
          refine ⟨[m], hsq, by simpa using hkeym, ?_, ?_, ?_⟩
          · intro h0
            exact absurd h0 (by simp)
          · intro x' hx'
            have hxx : x = x' := by simpa using hx'
            subst hxx
            exact ⟨m, hm, rfl⟩
          · intro x' y' r' hxy
            simp at hxy
        · obtain ⟨m, hm, hkeym, hsq⟩ := hout2 x y r hsh
          rw [hsh] at hsq
          refine ⟨_, hsq, ?_, ?_, ?_, ?_⟩
          · intro q hq'
            have hqrep : q = { m with batch_id := some (uuid i0),
                                      aggregated_ids := some (x :: y :: r) } := by
              simpa using hq'
            rw [hqrep, msgKey_batch]
            exact hkeym
          · intro h0
            exact absurd h0 (by simp)
          · intro x' hx'
            simp at hx'
          · intro x' y' r' hxy
            obtain ⟨hxx, hyy, hrr⟩ : x = x' ∧ y = y' ∧ r = r' := by
              simpa using hxy
            subst hxx
            subst hyy
            subst hrr
            exact ⟨m, hm, rfl⟩
      obtain ⟨out, hsq0, houtkey, houtchar⟩ := hout
      -- well-formedness is preserved
      have hsubq : ∀ p ∈ st'.queues, p ∈ st.queues := by
        intro p hp
        rw [hq'] at hp
        exact mem_of_mem_aerase hp
      have hnek : ∀ p ∈ st'.queues, p.1 ≠ k := by
        intro p hp
        rw [hq'] at hp
        exact ne_of_mem_aerase hp
      have hwf' : WF st' := by
        refine ⟨?_, ?_, ?_, ?_⟩
        · rw [hq']
          exact hndK.sublist ((aerase_sublist st.queues k).map Prod.fst)
        · intro p hp
          exact hndQ p (hsubq p hp)
        · intro p hp q hqq hne
          exact hdisj p (hsubq p hp) q (hsubq q hqq) hne
        · intro p hp i hi
          rw [hother p (hsubq p hp) (hnek p hp) i hi]
          exact hmsg p (hsubq p hp) i hi
      have hkeys' : ∀ k' ∈ ks, k' ∈ st'.queues.map Prod.fst := by
        intro k' hk'
        have hne : k' ≠ k := fun he => hndc.1 (he ▸ hk')
        have : aget st'.queues k' = aget st.queues k' := by
          rw [hq']
          exact aget_aerase_ne st.queues k k' (fun he => hne he.symm)
        apply mem_keys_of_aget_isSome
        rw [this]
        exact aget_isSome_of_mem_keys (hkeys k' (List.mem_cons_of_mem k hk'))
      have hplans' : ∀ p ∈ st'.queues, (plans p.1.1).isSome :=
        fun p hp => hplans p (hsubq p hp)
      obtain ⟨final, L', hgo, hsqf, hattr, hframe, hmono, hmain⟩ :=
        ih (i0 + 1) st' hwf' hndc.2 hkeys' hplans'
      refine ⟨final, out ++ L', ?_, ?_, ?_, ?_, ?_, ?_⟩
      · show aggregateGo plans activeDb now uuid (k :: ks) i0 st = some final
        simp only [aggregateGo, hstep]
        exact hgo
      · rw [hsqf, hsq0, List.append_assoc]
      · intro q hqL
        rcases List.mem_append.mp hqL with h | h
        · exact ⟨k, List.mem_cons_self k ks, houtkey q h⟩
        · obtain ⟨k', hk', hkey'⟩ := hattr q h
          exact ⟨k', List.mem_cons_of_mem k hk', hkey'⟩
      · intro K hK
        simp only [List.mem_cons, not_or] at hK
        have h1 := hframe K hK.2
        constructor
        · rw [h1.1, hq']
          exact aget_aerase_ne st.queues k K (fun he => hK.1 he.symm)
        · rw [h1.2, hs']
          exact aget_aset_ne st.sent k K now (fun he => hK.1 he.symm)
      · intro j hj
        apply hmono
        by_cases hjq : j ∈ qs
        · exact habs j hjq
        · rw [hkeep j hjq]
          exact hj
      · intro K qsK planK hK hqK hplanK hcondK
        rcases List.mem_cons.mp hK with hKk | hKks
        · -- K is the key just flushed
          subst hKk
          have hqs : qsK = qs := by
            rw [hq] at hqK
            exact (Option.some.injEq _ _ ▸ hqK).symm
          subst hqs
          have hkns : K ∉ ks := hndc.1
          have hfr := hframe K hkns
          have hLfilter : L'.filter (fun q => msgKey q = some K) = [] := by
            rw [List.filter_eq_nil]
            intro q hqL'
            obtain ⟨k', hk', hkey'⟩ := hattr q hqL'
            simp only [decide_eq_true_eq]
            rw [hkey']
            intro hcc
            have : k' = K := by simpa using hcc
            exact hkns (this ▸ hk')
          have houtfilter : out.filter (fun q => msgKey q = some K) = out := by
            rw [List.filter_eq_self]
            intro q hqo
            simp [houtkey q hqo]
          refine ⟨?_, ?_, ?_, ?_, ?_, ?_⟩
          · rw [hfr.1, hq']
            exact aget_aerase_self st.queues K
          · rw [hfr.2, hs']
            exact aget_aset_self st.sent K now
          · intro x hx
            exact hmono x (habs x hx)
          · intro hsh
            rw [List.filter_append, hLfilter, houtfilter, houtchar.1 hsh]
            simp
          · intro x hsh
            obtain ⟨m, hm, hout⟩ := houtchar.2.1 x hsh
            refine ⟨m, hm, ?_⟩
            rw [List.filter_append, hLfilter, houtfilter, hout]
            simp
          · intro x y r hsh
            obtain ⟨m, hm, hout⟩ := houtchar.2.2 x y r hsh
            refine ⟨m, uuid i0, hm, ?_⟩
            rw [List.filter_append, hLfilter, houtfilter, hout]
            simp
        · -- K is a later key: transfer through the untouched state
          have hKne : K ≠ k := fun he => hndc.1 (he ▸ hKks)
          have hqK' : aget st'.queues K = some qsK := by
            rw [hq', aget_aerase_ne st.queues k K (fun he => hKne he.symm)]
            exact hqK
          have hsent' : aget st'.sent K = aget st.sent K := by
            rw [hs']
            exact aget_aset_ne st.sent k K now (fun he => hKne he.symm)
          have hmemK : (K, qsK) ∈ st.queues := mem_of_aget_eq_some hqK
          have hmsgK : ∀ x ∈ qsK, aget st'.messages x = aget st.messages x :=
            fun x hx => hother (K, qsK) hmemK hKne x hx
          have hcond' : now - ((aget st'.sent K).getD 0) ≥ planK.aggregation_window := by
            rw [hsent']
            exact hcondK
          obtain ⟨hg1, hg2, hg3, hg4, hg5, hg6⟩ :=
            hmain K qsK planK hKks hqK' hplanK hcond'
          have houtfilterK : out.filter (fun q => msgKey q = some K) = [] := by
            rw [List.filter_eq_nil]
            intro q hqo
            simp only [decide_eq_true_eq]
            rw [houtkey q hqo]
            intro hcc
            have hkK : k = K := by simpa using hcc
            exact hKne hkK.symm
          refine ⟨hg1, hg2, hg3, ?_, ?_, ?_⟩
          · intro hsh
            rw [List.filter_append, houtfilterK, List.nil_append]
            exact hg4 hsh
          · intro x hsh
            obtain ⟨m, hm, hL⟩ := hg5 x hsh
            have hxq : x ∈ qsK := by
              have hxf : x ∈ qsK.filter (fun y => activeDb y) := by rw [hsh]; simp
              exact List.mem_of_mem_filter hxf
            refine ⟨m, ?_, ?_⟩
            · rw [← hmsgK x hxq]
              exact hm
            · rw [List.filter_append, houtfilterK, List.nil_append]
              exact hL
          · intro x y r hsh
            obtain ⟨m, u, hm, hL⟩ := hg6 x y r hsh
            have hxq : x ∈ qsK := by
              have hxf : x ∈ qsK.filter (fun z => activeDb z) := by rw [hsh]; simp
              exact List.mem_of_mem_filter hxf
            refine ⟨m, u, ?_, ?_⟩
            · rw [← hmsgK x hxq]
              exact hm
            · rw [List.filter_append, houtfilterK, List.nil_append]
              exact hL
    · -- key k does not flush: the state is unchanged by this iteration
      have hstep := aggregateKey_noflush plans activeDb now (uuid i0) st k plan
        hplan hcond
      have hkeys' : ∀ k' ∈ ks, k' ∈ st.queues.map Prod.fst :=
        fun k' hk' => hkeys k' (List.mem_cons_of_mem k hk')
      obtain ⟨final, L', hgo, hsqf, hattr, hframe, hmono, hmain⟩ :=
        ih (i0 + 1) st ⟨hndK, hndQ, hdisj, hmsg⟩ hndc.2 hkeys' hplans
      refine ⟨final, L', ?_, hsqf, ?_, ?_, hmono, ?_⟩
      · show aggregateGo plans activeDb now uuid (k :: ks) i0 st = some final
        simp only [aggregateGo, hstep]
        exact hgo
      · intro q hqL
        obtain ⟨k', hk', hkey'⟩ := hattr q hqL
        exact ⟨k', List.mem_cons_of_mem k hk', hkey'⟩
      · intro K hK
        simp only [List.mem_cons, not_or] at hK
        exact hframe K hK.2
      · intro K qsK planK hK hqK hplanK hcondK
        rcases List.mem_cons.mp hK with hKk | hKks
        · subst hKk
          rw [hq] at hqK
          have hqs : qsK = qs := (Option.some.injEq _ _ ▸ hqK).symm
          subst hqs
          rw [hplan] at hplanK
          have : planK = plan := (Option.some.injEq _ _ ▸ hplanK).symm
          subst this
          exact absurd hcondK hcond
        · exact hmain K qsK planK hKks hqK hplanK hcondK

/-- **C3.** For every key K flushed by `aggregate(now)` (i.e. with
`now - sent[K] ≥ aggregation_window`): the buffered ids that are no
longer active in the database are dropped from `messages`; if exactly
one active id remains, that single buffered message is enqueued to the
send queue unchanged (no batch id); if two or more remain, exactly one
representative message carrying a batch UUID and the list of all
remaining active ids is enqueued; in every case `queues[K]` is deleted
and `sent[K]` is set to `now`, and when zero active ids remain nothing
is enqueued for K. -/
theorem c3_aggregate_flush (plans : Nat → Option AggPlan)
    (activeDb : Nat → Bool) (now : Int) (uuid : Nat → String) (st : AggState)
    (hwf : WF st)
    (hplans : ∀ p ∈ st.queues, (plans p.1.1).isSome) :
    ∃ final L, aggregate plans activeDb now uuid st = some final ∧
      final.sendQueue = st.sendQueue ++ L ∧
      ∀ K qs plan, aget st.queues K = some qs → plans K.1 = some plan →
        now - ((aget st.sent K).getD 0) ≥ plan.aggregation_window →
        aget final.queues K = none ∧
        aget final.sent K = some now ∧
        (∀ x ∈ qs, activeDb x = false → aget final.messages x = none) ∧
        ((qs.filter (fun x => activeDb x) = [] →
           L.filter (fun q => msgKey q = some K) = []) ∧
         (∀ x, qs.filter (fun y => activeDb y) = [x] →
           ∃ m, aget st.messages x = some m ∧
             L.filter (fun q => msgKey q = some K) = [m]) ∧
         (∀ x y r, qs.filter (fun z => activeDb z) = x :: y :: r →
           ∃ m u, aget st.messages x = some m ∧
             L.filter (fun q => msgKey q = some K) =
               [({ m with batch_id := some u,
                          aggregated_ids :=
                            some (qs.filter (fun z => activeDb z)) } :
                 AggMsg)])) := by
  obtain ⟨final, L, hgo, hsq, _, _, _, hmain⟩ :=
    aggregateGo_spec plans activeDb now uuid (st.queues.map Prod.fst) 0 st
      hwf hwf.1 (fun k hk => hk) hplans
  refine ⟨final, L, hgo, hsq, ?_⟩
  intro K qs plan hq hp hc
  have hKmem : K ∈ st.queues.map Prod.fst :=
    mem_keys_of_aget_isSome (by simp [hq])
  obtain ⟨h1, h2, h3, h4⟩ := hmain K qs plan hKmem hq hp hc
  exact ⟨h1, h2, fun x hx _ => h3 x hx, h4⟩

/-- Witness for C3: a concrete state in which key `exKey` holds message
ids 1 and 2, both still active, flushed at t = 35 (34 seconds after the
last batch, window 30). -/
theorem c3_aggregate_flush_witness :
    ∃ final L,
      aggregate exPlans (fun _ => true) 35 (fun i => toString i) exAggSt =
        some final ∧
      final.sendQueue = exAggSt.sendQueue ++ L ∧
      ∀ K qs plan, aget exAggSt.queues K = some qs → exPlans K.1 = some plan →
        (35 : Int) - ((aget exAggSt.sent K).getD 0) ≥ plan.aggregation_window →
        aget final.queues K = none ∧
        aget final.sent K = some 35 ∧
        (∀ x ∈ qs, (fun _ => true) x = false → aget final.messages x = none) ∧
        ((qs.filter (fun x => (fun _ => true) x) = [] →
           L.filter (fun q => msgKey q = some K) = []) ∧
         (∀ x, qs.filter (fun y => (fun _ => true) y) = [x] →
           ∃ m, aget exAggSt.messages x = some m ∧
             L.filter (fun q => msgKey q = some K) = [m]) ∧
         (∀ x y r, qs.filter (fun z => (fun _ => true) z) = x :: y :: r →
           ∃ m u, aget exAggSt.messages x = some m ∧
             L.filter (fun q => msgKey q = some K) =
               [({ m with batch_id := some u,
                          aggregated_ids :=
                            some (qs.filter (fun z => (fun _ => true) z)) } :
                 AggMsg)])) :=
  c3_aggregate_flush exPlans (fun _ => true) 35 (fun i => toString i) exAggSt
    (by refine ⟨by decide, ?_, ?_, ?_⟩ <;> decide) (by decide)

theorem filter_map_pairs (l : List Int) (p : Int × Nat → Bool) :
    (l.map (fun u => (u, (1 : Nat)))).filter p =
      (l.filter (fun u => p (u, 1))).map (fun u => (u, (1 : Nat))) := by
  induction l with
  | nil => simp
  | cons a t ih =>
    by_cases hp : p (a, 1) = true
    · simp [hp, ih]
    · simp only [Bool.not_eq_true] at hp
      simp [hp, ih]

theorem aget_map_pairs_none (l : List Int) (t : Int) (h : t ∉ l) :
    aget (l.map (fun u => (u, (1 : Nat)))) t = none := by
  induction l with
  | nil => simp [aget]
  | cons a r ih =>
    simp only [List.mem_cons, not_or] at h
    simp only [List.map_cons, aget]
    rw [if_neg (fun he => h.1 he.symm)]
    exact ih h.2

theorem sumWindow_map_pairs (l : List Int) :
    sumWindow (l.map (fun u => (u, (1 : Nat)))) = l.length := by
  induction l with
  | nil => simp [sumWindow]
  | cons a r ih =>
    simp only [List.map_cons, sumWindow, List.map, List.sum_cons,
      List.length_cons] at ih ⊢
    omega

theorem windowBranch_windows (plan : AggPlan) (now : Int) (key : Key)
    (m : AggMsg) (st1 : AggState) :
    (windowBranch plan now key m st1).windows =
      aset st1.windows key
        (bump (((aget st1.windows key).getD []).filter
          (fun b => ¬ now - b.1 > plan.threshold_window)) now) := by
  unfold windowBranch
  dsimp only
  split
  · rfl
  · rfl

theorem fetch_windows (plans : Nat → Option AggPlan) (t : Int) (m : AggMsg)
    (st st' : AggState) (K : Key)
    (hf : fetch_and_prepare_message plans t m st = some st') :
    ((msgKey m = some K ∧ isWindowPath plans st t m = true) →
      ∃ pl, plans K.1 = some pl ∧
        aget st'.windows K =
          some (bump (((aget st.windows K).getD []).filter
            (fun b => ¬ t - b.1 > pl.threshold_window)) t)) ∧
    (¬ (msgKey m = some K ∧ isWindowPath plans st t m = true) →
      aget st'.windows K = aget st.windows K) := by
  cases hpid : m.plan_id with
  | none =>
    have hwp : isWindowPath plans st t m = false := by
      simp only [isWindowPath, hpid]
    have hst' : st' = { st with sendQueue := st.sendQueue ++ [m] } := by
      simp only [fetch_and_prepare_message, hpid] at hf
      exact (Option.some.injEq _ _ ▸ hf).symm
    constructor
    · intro hc
      rw [hwp] at hc
      exact absurd hc.2 (by simp)
    · intro _
      rw [hst']
  | some pid =>
    cases hplan : plans pid with
    | none =>
      exfalso
      simp only [fetch_and_prepare_message, hpid, hplan] at hf
      exact Option.noConfusion hf
    | some plan =>
      have hmk : msgKey m = some (pid, m.application, m.priority, m.target) := by
        simp only [msgKey, hpid, Option.map_some']
      -- the uniform window-branch case
      have hwb : ∀ st1 : AggState, st1.windows = st.windows →
          st' = windowBranch plan t (pid, m.application, m.priority, m.target) m st1 →
          isWindowPath plans st t m = true →
          ((msgKey m = some K ∧ isWindowPath plans st t m = true) →
            ∃ pl, plans K.1 = some pl ∧
              aget st'.windows K =
                some (bump (((aget st.windows K).getD []).filter
                  (fun b => ¬ t - b.1 > pl.threshold_window)) t)) ∧
          (¬ (msgKey m = some K ∧ isWindowPath plans st t m = true) →
            aget st'.windows K = aget st.windows K) := by
        intro st1 hw1 hst' hwpath
        constructor
        · intro hc
          have hKkey : (pid, m.application, m.priority, m.target) = K := by
            have := hmk.symm.trans hc.1
            simpa using this
          refine ⟨plan, ?_, ?_⟩
          · rw [← hKkey]
            exact hplan
          · rw [hst', windowBranch_windows, hw1, hKkey]
            exact aget_aset_self st.windows K _
        · intro hc
          have hne : msgKey m ≠ some K := by
            intro hmkK
            exact hc ⟨hmkK, hwpath⟩
          have hKkey : (pid, m.application, m.priority, m.target) ≠ K := by
            intro he
            exact hne (hmk.trans (by rw [he]))
          rw [hst', windowBranch_windows, hw1]
          exact aget_aset_ne st.windows _ K _ hKkey
      cases haggr : aget st.aggregation (pid, m.application, m.priority, m.target) with
      | none =>
        have hwpath : isWindowPath plans st t m = true := by
          simp only [isWindowPath, hpid, hplan, haggr]
        have hst' : st' =
            windowBranch plan t (pid, m.application, m.priority, m.target) m st := by
          simp only [fetch_and_prepare_message, hpid, hplan, haggr] at hf
          exact (Option.some.injEq _ _ ▸ hf).symm
        exact hwb st rfl hst' hwpath
      | some lastAgg =>
        by_cases h0 : lastAgg = 0
        · have hwpath : isWindowPath plans st t m = true := by
            simp only [isWindowPath, hpid, hplan, haggr]
            simp [h0]
          have hst' : st' =
              windowBranch plan t (pid, m.application, m.priority, m.target) m st := by
            simp only [fetch_and_prepare_message, hpid, hplan, haggr] at hf
            rw [if_pos h0] at hf
            exact (Option.some.injEq _ _ ▸ hf).symm
          exact hwb st rfl hst' hwpath
        · by_cases hreset : t - lastAgg > plan.aggregation_reset
          · have hwpath : isWindowPath plans st t m = true := by
              simp only [isWindowPath, hpid, hplan, haggr]
              simp [hreset]
            have hst' : st' =
                windowBranch plan t (pid, m.application, m.priority, m.target) m
                  { st with
                    aggregation := aerase st.aggregation
                      (pid, m.application, m.priority, m.target),
                    sent := aerase st.sent
                      (pid, m.application, m.priority, m.target) } := by
              simp only [fetch_and_prepare_message, hpid, hplan, haggr] at hf
              rw [if_neg h0, if_pos hreset] at hf
              exact (Option.some.injEq _ _ ▸ hf).symm
            refine hwb { st with
                aggregation := aerase st.aggregation
                  (pid, m.application, m.priority, m.target),
                sent := aerase st.sent
                  (pid, m.application, m.priority, m.target) }
              rfl hst' hwpath
          · -- still aggregating: the message is buffered, windows untouched
            have hwpath : isWindowPath plans st t m = false := by
              simp only [isWindowPath, hpid, hplan, haggr]
              simp [h0, hreset]
            have hst' : st' = { st with
                aggregation := aset st.aggregation
                  (pid, m.application, m.priority, m.target) t,
                queues := qadd st.queues
                  (pid, m.application, m.priority, m.target) m.message_id,
                messages := aset st.messages m.message_id m } := by
              simp only [fetch_and_prepare_message, hpid, hplan, haggr] at hf
              rw [if_neg h0, if_neg hreset] at hf
              exact (Option.some.injEq _ _ ▸ hf).symm
            constructor
            · intro hc
              rw [hwpath] at hc
              exact absurd hc.2 (by simp)
            · intro _
              rw [hst']

theorem runCollect_inv (plans : Nat → Option AggPlan) (K : Key)
    (planK : AggPlan)
    (hp : plans K.1 = some planK) (hth : 0 ≤ planK.threshold_window) :
    ∀ (tr : List (Int × AggMsg)) (st : AggState) (ts : List Int),
      (ts ++ tr.map Prod.fst).Pairwise (· < ·) →
      (match ts.getLast? with
       | none => aget st.windows K = none
       | some last => aget st.windows K =
           some (expectedWindow planK.threshold_window ts last)) →
      ∀ fin ncoll, runCollect plans K tr st = some (fin, ncoll) →
        (match (ts ++ ncoll).getLast? with
         | none => aget fin.windows K = none
         | some last => aget fin.windows K =
             some (expectedWindow planK.threshold_window (ts ++ ncoll) last)) := by
  intro tr
  induction tr with
  | nil =>
    intro st ts hpair hwin fin ncoll hrun
    simp only [runCollect, Option.some.injEq, Prod.mk.injEq] at hrun
    rw [← hrun.1, ← hrun.2, List.append_nil]
    exact hwin
  | cons hd tr ih =>
    obtain ⟨t, m⟩ := hd
    intro st ts hpair hwin fin ncoll hrun
    have hlt : ∀ u ∈ ts, u < t := by
      intro u hu
      have h := (List.pairwise_append.mp hpair).2.2
      exact h u hu t (by simp)
    cases hfe : fetch_and_prepare_message plans t m st with
    | none =>
      simp only [runCollect, hfe] at hrun
      exact Option.noConfusion hrun
    | some st' =>
      simp only [runCollect, hfe] at hrun
      obtain ⟨⟨fin', ncoll'⟩, hrc, heq⟩ := Option.map_eq_some'.mp hrun
      simp only [Prod.mk.injEq] at heq
      obtain ⟨hWtrue, hWfalse⟩ := fetch_windows plans t m st st' K hfe
      by_cases hcase : msgKey m = some K ∧ isWindowPath plans st t m = true
      · obtain ⟨pl, hpl, hwin'⟩ := hWtrue hcase
        have hplK : pl = planK := by
          have h2 : some pl = some planK := hpl.symm.trans hp
          exact Option.some.injEq _ _ ▸ h2
        subst hplK
        have hwin1 : aget st'.windows K =
            some (expectedWindow pl.threshold_window (ts ++ [t]) t) := by
          rw [hwin']
          congr 1
          rcases hl : ts.getLast? with _ | last
          · have hts : ts = [] := List.getLast?_eq_none.mp hl
            subst hts
            simp only [hl] at hwin
            rw [hwin]
            simp only [Option.getD_none, List.filter_nil, List.nil_append]
            unfold bump expectedWindow
            simp only [aget]
            have hcnd : t ≤ pl.threshold_window + t := by omega
            simp [hcnd]
          · simp only [hl] at hwin
            have hlastmem : last ∈ ts := List.mem_of_getLast?_eq_some hl
            have hlastlt : last < t := hlt last hlastmem
            rw [hwin]
            simp only [Option.getD_some]
            unfold expectedWindow
            rw [filter_map_pairs]
            have hff : (ts.filter (fun u => last - u ≤ pl.threshold_window)).filter
                  (fun u => (fun b : Int × Nat =>
                    ¬ t - b.1 > pl.threshold_window) (u, 1)) =
                ts.filter (fun u => t - u ≤ pl.threshold_window) := by
              rw [List.filter_filter]
              apply List.filter_congr
              intro u hu
              have hu_lt : u < t := hlt u hu
              rcases le_or_lt (t - u) pl.threshold_window with hle | hgt
              · have h1 : last - u ≤ pl.threshold_window := by omega
                simp [h1, hle, not_lt]
              · simp [not_le.mpr hgt]
            rw [hff]
            unfold bump
            have hnone : aget
                (List.map (fun u => (u, (1 : Nat)))
                  (List.filter (fun u => decide (t - u ≤ pl.threshold_window)) ts))
                t = none := by
              apply aget_map_pairs_none
              intro hc
              exact absurd (hlt t (List.mem_of_mem_filter hc)) (lt_irrefl t)
            rw [hnone]
            have hsingle : List.filter
                (fun u => decide (t - u ≤ pl.threshold_window)) [t] = [t] := by
              have hcnd : t - t ≤ pl.threshold_window := by omega
              simp only [List.filter_cons, List.filter_nil]
              rw [decide_eq_true hcnd]
              simp
            rw [List.filter_append, hsingle, List.map_append]
            simp
        have hpair' : ((ts ++ [t]) ++ tr.map Prod.fst).Pairwise (· < ·) := by
          rw [List.append_assoc]
          simpa using hpair
        have hrec := ih st' (ts ++ [t]) hpair'
          (by
            simp only [List.getLast?_concat]
            exact hwin1)
          fin' ncoll' hrc
        rw [← heq.1, ← heq.2]
        rw [if_pos hcase]
        have hassoc : ts ++ ([t] ++ ncoll') = (ts ++ [t]) ++ ncoll' :=
          (List.append_assoc ts [t] ncoll').symm
        rw [hassoc]
        exact hrec
      · have hwineq := hWfalse hcase
        have hpair' : (ts ++ tr.map Prod.fst).Pairwise (· < ·) := by
          refine hpair.sublist ?_
          exact (List.sublist_cons_self t (tr.map Prod.fst)).append_left ts
        have hwin0 : (match ts.getLast? with
            | none => aget st'.windows K = none
            | some last => aget st'.windows K =
                some (expectedWindow planK.threshold_window ts last)) := by
          rcases hl : ts.getLast? with _ | last
          · simp only [hl] at hwin ⊢
            rw [hwineq]
            exact hwin
          · simp only [hl] at hwin ⊢
            rw [hwineq]
            exact hwin
        have hrec := ih st' ts hpair' hwin0 fin' ncoll' hrc
        rw [← heq.1, ← heq.2]
        rw [if_neg hcase]
        simpa using hrec

/-- **C4 (counterexample).** With plan 1 having `threshold_count = 0`
and `threshold_window = 100`, message 1 at t = 1 enters aggregation mode
and message 2 at t = 5 is buffered without touching the window; at that
point `sum(windows[K]) = 1` but two messages classified under K have
timestamps within the last 100 seconds, so the claimed invariant fails. -/
theorem c4_rate_window_sum_counterexample :
    ((fetch_and_prepare_message exPlans 1 exM1 emptyState).bind
        (fetch_and_prepare_message exPlans 5 exM2)).map
      (fun st => sumWindow ((aget st.windows exKey).getD [])) = some 1 ∧
    specClassifiedCount [(1, exM1), (5, exM2)] exKey 5 100 = 2 ∧
    (1 : Nat) ≠ 2 := by
  refine ⟨by decide, by decide, by decide⟩

/-- **C4 (amended).** Restricted to messages taken through the rate-limit
branch (messages absorbed while the key is in aggregation mode never
touch `windows`), and evaluated at the most recent such intake (pruning
is lazy): after running the intake loop over a trace with strictly
increasing timestamps from the empty state, for every key K,
`sum(windows[K])` equals the number of rate-limit-branch intakes under K
whose timestamps lie within `threshold_window` seconds of the most
recent such intake, and `windows[K]` is absent when there was none. -/
theorem c4_rate_window_sum_amended (plans : Nat → Option AggPlan) (K : Key)
    (planK : AggPlan) (tr : List (Int × AggMsg))
    (hp : plans K.1 = some planK) (hth : 0 ≤ planK.threshold_window)
    (hpair : (tr.map Prod.fst).Pairwise (· < ·)) :
    match runCollect plans K tr emptyState with
    | none => True
    | some (fin, ts) =>
      match ts.getLast? with
      | none => aget fin.windows K = none
      | some last =>
        sumWindow ((aget fin.windows K).getD []) =
          (ts.filter (fun u => last - u ≤ planK.threshold_window)).length := by
  rcases hrun : runCollect plans K tr emptyState with _ | ⟨fin, ts⟩
  · trivial
  · have hinv := runCollect_inv plans K planK hp hth tr emptyState []
      (by simpa using hpair) (by rfl) fin ts hrun
    simp only [List.nil_append] at hinv
    rcases hl : ts.getLast? with _ | last
    · simp only [hl] at hinv ⊢
      exact hinv
    · simp only [hl] at hinv ⊢
      rw [hinv]
      simp only [Option.getD_some]
      unfold expectedWindow
      rw [sumWindow_map_pairs]

/-- Witness for the amended C4: the counterexample trace itself.  The
collected rate-limit intakes under `exKey` are `[1]` (message 2 was
buffered), and `sum(windows[exKey]) = 1` matches the one collected
timestamp within the window. -/
theorem c4_rate_window_sum_amended_witness :
    match runCollect exPlans exKey [(1, exM1), (5, exM2)] emptyState with
    | none => True
    | some (fin, ts) =>
      match ts.getLast? with
      | none => aget fin.windows exKey = none
      | some last =>
        sumWindow ((aget fin.windows exKey).getD []) =
          (ts.filter
            (fun u => last - u ≤ (100 : Int))).length :=
  c4_rate_window_sum_amended exPlans exKey ⟨30, 1000, 100, 0⟩
    [(1, exM1), (5, exM2)] (by decide) (by decide) (by decide)

end Iris.Agg

namespace Iris.Send

/-- **C5.** For a dispatcher message without a pre-set mode whose
priority-resolved mode has no `target_contact` row, the lookup is
retried with `target_fallback_mode` (`'email'`); when that also yields
nothing the message's mode, mode_id and destination are nulled, the
message row is set `active = 0`, an audit record `MODE_CHANGE` with new
value `'invalid'` is written, and the message is not sent (the delivered
list is empty). -/
theorem c5_contact_fallback_invalid (db : ContactDb)
    (reprio : DMessage → DMessage) (templates : String → Option Tpl)
    (msgContent : Nat → Option (String × String)) (reprF : DMessage → String)
    (eoc : Bool) (omk : DMessage → String) (send1 : DMessage → Bool)
    (updateMode : List MRow → DMessage → List MRow) (now : Int)
    (rows : List MRow) (audit : List AuditRec) (m0 : DMessage) (mid : Nat)
    (hpreset : m0.mode = none)
    (hmid : m0.message_id = some mid)
    (hnores : db.contacts.filter
      (fun c => c.target = m0.target ∧ some c.mode_id = resolved_mode_id db m0) = [])
    (hnofb : db.contacts.filter
      (fun c => c.target = m0.target ∧ c.mode_name = target_fallback_mode) = []) :
    set_target_contact db reprio m0 =
      some ({ m0 with destination := none, mode := none, mode_id := none },
        false) ∧
    fetch_and_send_message db reprio templates msgContent reprF eoc omk
        send1 updateMode now rows audit m0 =
      some (rows.map (fun r => if r.id = mid then { r with active := false } else r),
            audit ++ [⟨some mid, "MODE_CHANGE", target_fallback_mode, "invalid",
                      "Ignore message as we failed to resolve target contact"⟩],
            []) := by
  have hstc : set_target_contact db reprio m0 =
      some ({ m0 with destination := none, mode := none, mode_id := none },
        false) := by
    unfold set_target_contact
    rw [hpreset]
    simp only [Option.isSome_none, Bool.false_eq_true, if_neg, ite_false]
    unfold set_target_contact_by_priority
    rw [hnores]
    unfold set_target_fallback_mode
    rw [hnofb]
  refine ⟨hstc, ?_⟩
  unfold fetch_and_send_message
  rw [hstc]
  unfold mark_message_has_no_contact
  simp only [hmid]
  simp

/-- Witness for C5: an empty contact database, message id 7; the row is
deactivated, the audit record is appended, nothing is delivered. -/
theorem c5_contact_fallback_invalid_witness :
    set_target_contact exCDb id exDMsg =
      some ({ exDMsg with destination := none, mode := none, mode_id := none },
        false) ∧
    fetch_and_send_message exCDb id (fun _ => none) (fun _ => none)
        (fun _ => "") false (fun _ => "") (fun _ => true) (fun r _ => r)
        100 [exMRow] [] exDMsg =
      some ([exMRow].map
              (fun r => if r.id = 7 then { r with active := false } else r),
            [] ++ [⟨some 7, "MODE_CHANGE", target_fallback_mode, "invalid",
                   "Ignore message as we failed to resolve target contact"⟩],
            []) :=
  c5_contact_fallback_invalid exCDb id (fun _ => none) (fun _ => none)
    (fun _ => "") false (fun _ => "") (fun _ => true) (fun r _ => r)
    100 [exMRow] [] exDMsg 7 rfl rfl rfl rfl

end Iris.Send

namespace Iris.Send

/-- **C6.** `render` never drops a templated message on failure: when the
template, application, or mode lookup fails, or rendering the subject or
the body raises, `render` completes without raising and produces the
synthetic message with subject `'<message_id> Iris failed to render your
message'`, a body of the form `'Failed rendering message.\n\nContext:
<repr>\n\nError: <reason>'`, and a null `template_id`. -/
theorem c6_render_failure_synthetic (templates : String → Option Tpl)
    (msgContent : Nat → Option (String × String)) (reprF : DMessage → String)
    (eoc : Bool) (omk : DMessage → String) (m : DMessage) (tname : String)
    (htpl : m.template = some tname)
    (hagg : m.aggregated_ids = none)
    (hfail :
      templates tname = none ∨
      (∃ tpl, templates tname = some tpl ∧ tpl.apps m.application = none) ∨
      (∃ tpl appT, templates tname = some tpl ∧
        tpl.apps m.application = some appT ∧ appT (m.mode.getD "None") = none) ∨
      (∃ tpl appT mt e, templates tname = some tpl ∧
        tpl.apps m.application = some appT ∧
        appT (m.mode.getD "None") = some mt ∧
        mt.subjectTpl m.context = .error e) ∨
      (∃ tpl appT mt e, templates tname = some tpl ∧
        tpl.apps m.application = some appT ∧
        appT (m.mode.getD "None") = some mt ∧
        mt.bodyTpl m.context = .error e)) :
    ∃ m' ctxm reason,
      render templates msgContent reprF eoc omk m = some m' ∧
      m'.subject = some (pyStrOptNat m.message_id ++
        " Iris failed to render your message") ∧
      m'.body = some ("Failed rendering message.\n\nContext: " ++
        reprF ctxm ++ "\n\nError: " ++ reason) ∧
      m'.template_id = none := by
  have hmid1 : (if m.body = none then { m with body := some "" } else m).message_id
      = m.message_id := by
    split
    · rfl
    · rfl
  have key2 : ∀ (mm : DMessage) (err : String),
      render templates msgContent reprF eoc omk m =
        some (renderError reprF mm err) →
      mm.message_id = m.message_id →
      ∃ m' ctxm reason,
        render templates msgContent reprF eoc omk m = some m' ∧
        m'.subject = some (pyStrOptNat m.message_id ++
          " Iris failed to render your message") ∧
        m'.body = some ("Failed rendering message.\n\nContext: " ++
          reprF ctxm ++ "\n\nError: " ++ reason) ∧
        m'.template_id = none := by
    intro mm err hren hmm
    refine ⟨renderError reprF mm err,
      { mm with subject := some (pyStrOptNat mm.message_id ++
          " Iris failed to render your message") }, err, hren, ?_, rfl, rfl⟩
    show some (pyStrOptNat mm.message_id ++
        " Iris failed to render your message") = _
    rw [hmm]
  rcases hfail with h1 | ⟨tpl, h1, h2⟩ | ⟨tpl, appT, h1, h2, h3⟩ |
    ⟨tpl, appT, mt, e, h1, h2, h3, h4⟩ | ⟨tpl, appT, mt, e, h1, h2, h3, h4⟩
  · exact key2 _ _
      (by
        unfold render
        rw [htpl]
        simp only [hagg, h1]
        rw [← htpl])
      (by split <;> rfl)
  · exact key2 _ _
      (by
        unfold render
        rw [htpl]
        simp only [hagg, h1, h2]
        rw [← htpl])
      (by split <;> rfl)
  · exact key2 _ _
      (by
        unfold render
        rw [htpl]
        simp only [hagg, h1, h2, h3]
        rw [← htpl])
      (by split <;> rfl)
  · -- the subject render raised; the body may or may not render
    cases hb4 : mt.bodyTpl m.context with
    | ok b =>
      exact key2 _ _
        (by
          unfold render
          rw [htpl]
          simp only [hagg, h1, h2, h3, h4, hb4]
          rw [← htpl])
        (by split <;> rfl)
    | error e2 =>
      exact key2 _ _
        (by
          unfold render
          rw [htpl]
          simp only [hagg, h1, h2, h3, h4, hb4]
          rw [← htpl])
        (by split <;> rfl)
  · -- the body render raised, whatever the subject did
    cases hs4 : mt.subjectTpl m.context with
    | ok s =>
      exact key2 _ _
        (by
          unfold render
          rw [htpl]
          simp only [hagg, h1, h2, h3, h4, hs4]
          rw [← htpl])
        (by split <;> rfl)
    | error e2 =>
      exact key2 _ _
        (by
          unfold render
          rw [htpl]
          simp only [hagg, h1, h2, h3, h4, hs4]
          rw [← htpl])
        (by split <;> rfl)

/-- Witness for C6: a message whose template name is not in the cache:
the synthetic failure message is produced. -/
theorem c6_render_failure_synthetic_witness :
    ∃ m' ctxm reason,
      render (fun _ => none) (fun _ => none) exReprF false
        (fun _ => "") exRMsg = some m' ∧
      m'.subject = some (pyStrOptNat exRMsg.message_id ++
        " Iris failed to render your message") ∧
      m'.body = some ("Failed rendering message.\n\nContext: " ++
        exReprF ctxm ++ "\n\nError: " ++ reason) ∧
      m'.template_id = none :=
  c6_render_failure_synthetic (fun _ => none) (fun _ => none)
    exReprF false (fun _ => "") exRMsg "missing_tpl"
    rfl rfl (Or.inl rfl)

end Iris.Send

namespace Iris.Send

theorem pyTruncate255_length (s : String) : (pyTruncate255 s).length ≤ 255 := by
  unfold pyTruncate255
  split
  · show (s.data.take 255).length ≤ 255
    rw [List.length_take]
    omega
  · omega

/-- **C7.** The claim says `mark_message_as_sent`'s UPDATE stores the
subject truncated to at most 255 characters.  It does not: `params`
(lines 741-747) captures `message['subject']` before the fix-ups of
lines 755-759 rebind it, so the UPDATE stores the ORIGINAL subject and
body verbatim — the repaired, correctly bounded value (`subject_fixup`,
whose subject is proved here to be at most 255 characters) stays in the
local dict and never reaches the database.  The rest of the claim
holds: every targeted row (the single message id, or each id in
`aggregated_ids` for batches) gets the message's destination, mode_id,
template_id, `sent = NOW()`, `active = FALSE` and the batch UUID for
batches, and rows outside the target set are untouched. -/
theorem c7_mark_message_as_sent (rows : List MRow) (now : Int) (m : DMessage)
    (hdest : m.destination ≠ none) (hmode : m.mode_id ≠ none) :
    ((subject_fixup m).subject.getD "").length ≤ 255 ∧
    ∀ r ∈ rows, ∃ r', r' ∈ mark_message_as_sent rows now m ∧ r'.id = r.id ∧
      (sentTarget m r →
        r'.active = false ∧
        r'.sent = some now ∧
        r'.destination = m.destination ∧ r'.destination ≠ none ∧
        r'.mode_id = m.mode_id ∧ r'.mode_id ≠ none ∧
        r'.template_id = m.template_id ∧
        r'.subject = m.subject ∧
        r'.body = m.body ∧
        (m.aggregated_ids.isSome → r'.batch = m.batch_id)) ∧
      (¬ sentTarget m r → r' = r) := by
  constructor
  · show ((Option.some (pyTruncate255 _)).getD "").length ≤ 255
    exact pyTruncate255_length _
  intro r hr
  unfold mark_message_as_sent sentTarget
  cases hagg : m.aggregated_ids with
  | some ids =>
    by_cases hmem : r.id ∈ ids
    · refine ⟨_, List.mem_map_of_mem _ hr, ?_, ?_, ?_⟩
      · rw [if_pos hmem]
      · intro _
        rw [if_pos hmem]
        exact ⟨rfl, rfl, rfl, hdest, rfl, hmode, rfl, rfl, rfl, fun _ => rfl⟩
      · intro hns
        exact absurd hmem hns
    · refine ⟨_, List.mem_map_of_mem _ hr, ?_, ?_, ?_⟩
      · rw [if_neg hmem]
      · intro hts
        exact absurd hts hmem
      · intro _
        rw [if_neg hmem]
  | none =>
    by_cases hmem : m.message_id = some r.id
    · refine ⟨_, List.mem_map_of_mem _ hr, ?_, ?_, ?_⟩
      · rw [if_pos hmem]
      · intro _
        rw [if_pos hmem]
        refine ⟨rfl, rfl, rfl, hdest, rfl, hmode, rfl, rfl, rfl, ?_⟩
        intro hsome
        exact absurd hsome (by simp)
      · intro hns
        exact absurd hmem hns
    · refine ⟨_, List.mem_map_of_mem _ hr, ?_, ?_, ?_⟩
      · rw [if_neg hmem]
      · intro hts
        exact absurd hts hmem
      · intro _
        rw [if_neg hmem]

/-- Witness for C7 at the failing input: a batch whose subject is the
256-character `longSubject`.  The dict's repaired subject is bounded by
255, yet targeted row 1 stores the original `some longSubject` of
length 256 — the truncation the claim describes never happens in the
table. -/
theorem c7_mark_message_as_sent_witness :
    (exLongMsg.subject = some longSubject ∧ 255 < longSubject.length) ∧
    ((subject_fixup exLongMsg).subject.getD "").length ≤ 255 ∧
    (∃ r', r' ∈ mark_message_as_sent
        [({ id := 1 } : MRow), { id := 2 }, { id := 3 }] 50 exLongMsg ∧
      r'.id = ({ id := 1 } : MRow).id ∧
      (sentTarget exLongMsg { id := 1 } →
        r'.active = false ∧
        r'.sent = some 50 ∧
        r'.destination = exLongMsg.destination ∧ r'.destination ≠ none ∧
        r'.mode_id = exLongMsg.mode_id ∧ r'.mode_id ≠ none ∧
        r'.template_id = exLongMsg.template_id ∧
        r'.subject = exLongMsg.subject ∧
        r'.body = exLongMsg.body ∧
        (exLongMsg.aggregated_ids.isSome → r'.batch = exLongMsg.batch_id)) ∧
      (¬ sentTarget exLongMsg { id := 1 } → r' = { id := 1 })) :=
  ⟨⟨rfl, by
      have h : longSubject.length = 256 := List.length_replicate 256 'a'
      omega⟩,
   (c7_mark_message_as_sent [{ id := 1 }, { id := 2 }, { id := 3 }] 50 exLongMsg
     (by decide) (by decide)).1,
   (c7_mark_message_as_sent [{ id := 1 }, { id := 2 }, { id := 3 }] 50 exLongMsg
     (by decide) (by decide)).2 { id := 1 } (by decide)⟩
end Iris.Send

namespace Iris.Esc

theorem mem_firstKeys {α κ : Type} [DecidableEq κ] (key : α → κ) (l : List α)
    (k : κ) : k ∈ firstKeys key l ↔ ∃ x ∈ l, key x = k := by
  induction l with
  | nil => simp [firstKeys]
  | cons x xs ih =>
    simp only [firstKeys, List.mem_cons, List.mem_filter, ih, List.mem_cons]
    constructor
    · rintro (rfl | ⟨⟨y, hy, rfl⟩, -⟩)
      · exact ⟨x, Or.inl rfl, rfl⟩
      · exact ⟨y, Or.inr hy, rfl⟩
    · rintro ⟨y, (rfl | hy), rfl⟩
      · exact Or.inl rfl
      · by_cases h : key y = key x
        · exact Or.inl h
        · exact Or.inr ⟨⟨y, hy, rfl⟩, by simpa using h⟩

theorem foldl_max_ge (x : Nat) (xs : List Nat) :
    x ≤ xs.foldl Nat.max x ∧ ∀ y ∈ xs, y ≤ xs.foldl Nat.max x := by
  induction xs generalizing x with
  | nil => simp
  | cons z zs ih =>
    refine ⟨?_, ?_⟩
    · exact le_trans (Nat.le_max_left x z) (ih (Nat.max x z)).1
    · intro y hy
      rcases List.mem_cons.mp hy with rfl | hy
      · exact le_trans (Nat.le_max_right x y) (ih (Nat.max x y)).1
      · exact (ih (Nat.max x z)).2 y hy

theorem foldl_max_mem (x : Nat) (xs : List Nat) :
    xs.foldl Nat.max x = x ∨ xs.foldl Nat.max x ∈ xs := by
  induction xs generalizing x with
  | nil => simp
  | cons z zs ih =>
    rcases ih (Nat.max x z) with h | h
    · simp only [List.foldl_cons, h]
      by_cases h2 : z ≤ x
      · exact Or.inl (Nat.max_eq_left h2)
      · exact Or.inr (by simp [Nat.max_eq_right (Nat.le_of_not_le h2)])
    · exact Or.inr (List.mem_cons_of_mem _ h)

end Iris.Esc

namespace Iris.Esc

/-- **C10.** When role expansion returns a non-empty name list but no
name resolves in the target-name cache, `create_messages` inserts no
row (each unresolved name is skipped with only a counter increment) yet
still returns `True`; the caller therefore counts every such
plan_notification as a success, so `step_msg_cnt` is positive, the
step-1 reset to `current_step = 0` is not triggered, and the step is
committed with zero messages created. -/
theorem c10_create_messages_unresolved (c : Caches)
    (incident_id plan_id step : Nat)
    (hsteps : (c.plans plan_id).steps step ≠ [])
    (hall : ∀ pnid ∈ (c.plans plan_id).steps step,
      ¬ (c.targets_for_role (c.roles (c.plan_notifications pnid).role_id)
          (c.targets (c.plan_notifications pnid).target_id)).isEmpty ∧
      ∀ name ∈ c.targets_for_role (c.roles (c.plan_notifications pnid).role_id)
          (c.targets (c.plan_notifications pnid).target_id),
        c.target_names name = none) :
    (∀ pnid ∈ (c.plans plan_id).steps step,
      create_messages c incident_id pnid = (true, [])) ∧
    processEscalation c incident_id plan_id step = (.setStep step, []) := by
  have hcm : ∀ pnid ∈ (c.plans plan_id).steps step,
      create_messages c incident_id pnid = (true, []) := by
    intro pnid hpn
    obtain ⟨hne, hnone⟩ := hall pnid hpn
    simp only [create_messages, if_neg hne]
    refine Prod.ext rfl ?_
    simp only []
    rw [List.filterMap_eq_nil]
    intro name hname
    rw [hnone name hname]
    rfl
  refine ⟨hcm, ?_⟩
  simp only [processEscalation]
  cases hst : (c.plans plan_id).steps step with
  | nil => exact absurd hst hsteps
  | cons p ps =>
    rw [hst] at hcm
    have hres : (p :: ps).map (fun pnid => create_messages c incident_id pnid)
        = (p :: ps).map (fun _ => ((true, []) : Bool × List NewMsg)) :=
      List.map_congr_left hcm
    rw [if_neg (by simp : ¬ (((p :: ps) : List Nat).isEmpty = true)), hres]
    simp [List.filter_map, Function.comp]

/-- Witness for C10: plan 11's single step consists of pn 6, whose role
`ghost` expands to the single unresolvable name `nobody`. -/
theorem c10_create_messages_unresolved_witness :
    ((exCaches.plans 11).steps 1 ≠ [] ∧
      ∀ pnid ∈ (exCaches.plans 11).steps 1,
        ¬ (exCaches.targets_for_role
            (exCaches.roles (exCaches.plan_notifications pnid).role_id)
            (exCaches.targets (exCaches.plan_notifications pnid).target_id)).isEmpty ∧
        ∀ name ∈ exCaches.targets_for_role
            (exCaches.roles (exCaches.plan_notifications pnid).role_id)
            (exCaches.targets (exCaches.plan_notifications pnid).target_id),
          exCaches.target_names name = none) ∧
    (∀ pnid ∈ (exCaches.plans 11).steps 1,
      create_messages exCaches 9 pnid = (true, [])) ∧
    processEscalation exCaches 9 11 1 = (.setStep 1, []) :=
  ⟨⟨by decide, by decide⟩,
    c10_create_messages_unresolved exCaches 9 11 1 (by decide) (by decide)⟩

end Iris.Esc

namespace Iris.Esc

/-- Counterexample to C1: in `exDB1`, `QUEUE_SQL` yields one repeat row
(`count = 1 < max = 3`, `age = 100 > wait = 0`) for pn 5, whose role
expands to the two resolvable targets `alice` and `bob`, so `escalate`
emits two messages for that plan_notification, not exactly one. -/
theorem c1_escalation_step_counterexample :
    ∃ n ∈ queueRows exCaches exDB1 100, n.count < n.max ∧
      ¬ ((escalate exCaches exDB1 100).inserted.filter
          (fun m => m.plan_notification_id = n.plan_notification_id)).length = 1 ∧
      ((escalate exCaches exDB1 100).inserted.filter
          (fun m => m.plan_notification_id = n.plan_notification_id)).length = 2 := by
  refine ⟨{ incident_id := 1, plan_id := 10, plan_notification_id := 5,
            count := 1, max := 3, age := 100, wait := 0, step := 1,
            current_step := 1, step_count := 2 }, ?_, ?_, ?_, ?_⟩
  · decide
  · decide
  · decide
  · decide

end Iris.Esc

namespace Iris.Esc

/-- **C1 (amended).** Every `QUEUE_SQL` row satisfies the HAVING clause
(`age > wait`, and `count < max` or a full current step below
`step_count`).  A row with `count < max` is handled by calling
`create_messages` for the same plan_notification, which (when the role
expansion is non-empty) emits one message per name the target-name cache
resolves — possibly zero or several, not exactly one.  A row with
`count = max` only records the escalation `(plan_id, current_step + 1)`;
the escalations pass then emits the `create_messages` results of every
plan_notification of the new step and moves the incident to
`current_step + 1` (when the new step is non-empty and either
`current_step + 1 > 1` or some notification succeeded), while an
incident whose new step has no plan_notifications is invalidated
instead of advanced. -/
theorem c1_escalation_step_amended (c : Caches) (db : DB) (now : Int)
    (n : QRow) (hn : n ∈ queueRows c db now) :
    (n.wait < n.age ∧ (n.count < n.max ∨
      (n.count = n.max ∧ n.step = n.current_step ∧ n.step < n.step_count))) ∧
    (n.count < n.max →
      (handleQueueRow c n).1 = none ∧
      (¬ (c.targets_for_role
            (c.roles (c.plan_notifications n.plan_notification_id).role_id)
            (c.targets (c.plan_notifications n.plan_notification_id).target_id)).isEmpty →
        (handleQueueRow c n).2 =
          (c.targets_for_role
            (c.roles (c.plan_notifications n.plan_notification_id).role_id)
            (c.targets (c.plan_notifications n.plan_notification_id).target_id)).filterMap
            (fun name => (c.target_names name).map fun target_id =>
              ({ plan_id := (c.plan_notifications n.plan_notification_id).plan_id,
                 plan_notification_id := n.plan_notification_id,
                 incident_id := n.incident_id,
                 application_id := c.incidents_app n.incident_id,
                 target_id := target_id,
                 priority_id := (c.plan_notifications n.plan_notification_id).priority_id,
                 body := "" } : NewMsg)))) ∧
    (¬ n.count < n.max →
      handleQueueRow c n = (some (n.plan_id, n.current_step + 1), []) ∧
      ∀ iid,
        ((c.plans n.plan_id).steps (n.current_step + 1) = [] →
          processEscalation c iid n.plan_id (n.current_step + 1) = (.invalidate, [])) ∧
        ((c.plans n.plan_id).steps (n.current_step + 1) ≠ [] →
          (processEscalation c iid n.plan_id (n.current_step + 1)).2 =
            (((c.plans n.plan_id).steps (n.current_step + 1)).map
              (fun pnid => (create_messages c iid pnid).2)).flatten ∧
          ((n.current_step ≠ 0 ∨
              ∃ pnid ∈ (c.plans n.plan_id).steps (n.current_step + 1),
                (create_messages c iid pnid).1 = true) →
            (processEscalation c iid n.plan_id (n.current_step + 1)).1 =
              .setStep (n.current_step + 1)))) := by
  refine ⟨?_, ?_, ?_⟩
  · simp only [queueRows] at hn
    have h := List.of_mem_filter hn
    simpa [queueHaving] using h
  · intro hlt
    refine ⟨by simp [handleQueueRow, if_pos hlt], ?_⟩
    intro hne
    simp only [handleQueueRow, if_pos hlt]
    simp only [create_messages, if_neg hne]
  · intro hge
    refine ⟨by simp [handleQueueRow, if_neg hge], ?_⟩
    intro iid
    refine ⟨?_, ?_⟩
    · intro hnil
      simp [processEscalation, hnil]
    · intro hne
      have hemp : ¬ (((c.plans n.plan_id).steps (n.current_step + 1)).isEmpty = true) := by
        simpa [List.isEmpty_iff] using hne
      refine ⟨?_, ?_⟩
      · simp only [processEscalation, if_neg hemp, List.map_map]
        rfl
      · intro hsucc
        have hcond : ¬ (n.current_step + 1 = 1 ∧
            ((((c.plans n.plan_id).steps (n.current_step + 1)).map
              (fun pnid => create_messages c iid pnid)).filter (·.1)).length = 0) := by
          rintro ⟨h1, h0⟩
          rcases hsucc with hcur | ⟨pnid, hmem, hsuc⟩
          · omega
          · have hm : create_messages c iid pnid ∈
                (((c.plans n.plan_id).steps (n.current_step + 1)).map
                  (fun q => create_messages c iid q)) :=
              List.mem_map_of_mem _ hmem
            have hmf : create_messages c iid pnid ∈
                ((((c.plans n.plan_id).steps (n.current_step + 1)).map
                  (fun q => create_messages c iid q)).filter (·.1)) :=
              List.mem_filter.mpr ⟨hm, by simpa using hsuc⟩
            rw [List.length_eq_zero] at h0
            rw [h0] at hmf
            exact absurd hmf (by simp)
        simp only [processEscalation, if_neg hemp, if_neg hcond]

end Iris.Esc

namespace Iris.Esc

/-- Witness for the amended C1, at the repeat row of `exDB1`. -/
theorem c1_escalation_step_amended_witness :
    let n : QRow :=
      { incident_id := 1, plan_id := 10, plan_notification_id := 5,
        count := 1, max := 3, age := 100, wait := 0, step := 1,
        current_step := 1, step_count := 2 }
    (n ∈ queueRows exCaches exDB1 100) ∧
    ((n.wait < n.age ∧ (n.count < n.max ∨
      (n.count = n.max ∧ n.step = n.current_step ∧ n.step < n.step_count))) ∧
    (n.count < n.max →
      (handleQueueRow exCaches n).1 = none ∧
      (¬ (exCaches.targets_for_role
            (exCaches.roles (exCaches.plan_notifications n.plan_notification_id).role_id)
            (exCaches.targets (exCaches.plan_notifications n.plan_notification_id).target_id)).isEmpty →
        (handleQueueRow exCaches n).2 =
          (exCaches.targets_for_role
            (exCaches.roles (exCaches.plan_notifications n.plan_notification_id).role_id)
            (exCaches.targets (exCaches.plan_notifications n.plan_notification_id).target_id)).filterMap
            (fun name => (exCaches.target_names name).map fun target_id =>
              ({ plan_id := (exCaches.plan_notifications n.plan_notification_id).plan_id,
                 plan_notification_id := n.plan_notification_id,
                 incident_id := n.incident_id,
                 application_id := exCaches.incidents_app n.incident_id,
                 target_id := target_id,
                 priority_id := (exCaches.plan_notifications n.plan_notification_id).priority_id,
                 body := "" } : NewMsg)))) ∧
    (¬ n.count < n.max →
      handleQueueRow exCaches n = (some (n.plan_id, n.current_step + 1), []) ∧
      ∀ iid,
        ((exCaches.plans n.plan_id).steps (n.current_step + 1) = [] →
          processEscalation exCaches iid n.plan_id (n.current_step + 1) = (.invalidate, [])) ∧
        ((exCaches.plans n.plan_id).steps (n.current_step + 1) ≠ [] →
          (processEscalation exCaches iid n.plan_id (n.current_step + 1)).2 =
            (((exCaches.plans n.plan_id).steps (n.current_step + 1)).map
              (fun pnid => (create_messages exCaches iid pnid).2)).flatten ∧
          ((n.current_step ≠ 0 ∨
              ∃ pnid ∈ (exCaches.plans n.plan_id).steps (n.current_step + 1),
                (create_messages exCaches iid pnid).1 = true) →
            (processEscalation exCaches iid n.plan_id (n.current_step + 1)).1 =
              .setStep (n.current_step + 1))))) :=
  ⟨by decide, c1_escalation_step_amended exCaches exDB1 100 _ (by decide)⟩

end Iris.Esc

namespace Iris.Esc

/-- Counterexample to C2: in `exDB2`, pn 8 belongs to the final step of
plan 12 and has one message while `repeat + 1 = 2`, so under the
claim's for-every-PlanNotification reading incident 2 must stay active;
but `INACTIVE_SQL` deactivates an incident as soon as SOME
(incident, plan_notification) group is exhausted — here pn 7 — and
incident 2 comes out inactive. -/
theorem c2_deactivate_counterexample :
    ((deactivate exCaches exDB2 100).incidents.map (fun i => (i.id, i.active))) =
      [(2, false)] ∧
    (exDB2.incidents.map (fun i => (i.id, i.plan_id, i.current_step, i.active))) =
      [(2, 12, 1, true)] ∧
    (exCaches.plans 12).step_count = 1 ∧
    (exCaches.plans 12).steps 1 = [7, 8] ∧
    (exCaches.plan_notifications 8).step = 1 ∧
    (exCaches.plan_notifications 8).repeat_count + 1 = 2 ∧
    (exDB2.messages.filter (fun m =>
      m.incident_id = 2 ∧ m.plan_notification_id = 8)).length = 1 := by
  refine ⟨?_, ?_, ?_, ?_, ?_, ?_, ?_⟩ <;> decide

end Iris.Esc

namespace Iris.Esc

theorem exhaustedGroup_iff (c : Caches) (R : List DInner) (pnid : Nat)
    (hR : R ≠ []) :
    exhaustedGroup c R pnid = true ↔
      ((∃ r ∈ R, r.count = (c.plan_notifications pnid).repeat_count + 1) ∧
       (∀ r ∈ R, r.count ≤ (c.plan_notifications pnid).repeat_count + 1)) ∧
      (∃ r ∈ R, r.age.isSome) ∧
      (∀ r ∈ R, ∀ a, r.age = some a → (c.plan_notifications pnid).wait < a) := by
  cases R with
  | nil => exact absurd rfl hR
  | cons r rs =>
    simp only [exhaustedGroup, decide_eq_true_eq]
    have hfold : rs.foldl (fun a g => Nat.max a g.count) r.count =
        (rs.map (fun g => g.count)).foldl Nat.max r.count := by
      rw [List.foldl_map]
    constructor
    · rintro ⟨hmax, hne, hall⟩
      rw [hfold] at hmax
      refine ⟨⟨?_, ?_⟩, ?_, ?_⟩
      · rcases foldl_max_mem r.count (rs.map (fun g => g.count)) with h | h
        · exact ⟨r, List.mem_cons_self r rs, by rw [← h, ← hmax]⟩
        · rcases List.mem_map.mp h with ⟨g, hg, hgc⟩
          exact ⟨g, List.mem_cons_of_mem _ hg, by rw [hgc, hmax]⟩
      · intro g hg
        rcases List.mem_cons.mp hg with rfl | hg
        · rw [← hmax]; exact (foldl_max_ge g.count (rs.map (fun x => x.count))).1
        · rw [← hmax]
          exact (foldl_max_ge r.count (rs.map (fun x => x.count))).2 _
            (List.mem_map_of_mem _ hg)
      · by_contra hno
        push_neg at hno
        apply hne
        rw [List.isEmpty_iff, List.map_eq_nil, List.filterMap_eq_nil]
        intro g hg
        have hno2 := hno g hg
        rcases hga : g.age with _ | a
        · rfl
        · rw [hga] at hno2
          simp at hno2
      · intro g hg a ha
        have : decide ((c.plan_notifications pnid).wait < a) ∈
            ((r :: rs).filterMap (fun x => x.age)).map
              (fun a => decide ((c.plan_notifications pnid).wait < a)) :=
          List.mem_map_of_mem _ (List.mem_filterMap.mpr ⟨g, hg, ha⟩)
        have := List.all_eq_true.mp hall _ this
        simpa using this
    · rintro ⟨⟨⟨g0, hg0, hc0⟩, hle⟩, ⟨g1, hg1, hs1⟩, hages⟩
      refine ⟨?_, ?_, ?_⟩
      · rw [hfold]
        have h1 := foldl_max_mem r.count (rs.map (fun x => x.count))
        have h2 := foldl_max_ge r.count (rs.map (fun x => x.count))
        have hub : (rs.map (fun x => x.count)).foldl Nat.max r.count ≤
            (c.plan_notifications pnid).repeat_count + 1 := by
          rcases h1 with h | h
          · rw [h]; exact hle r (List.mem_cons_self r rs)
          · rcases List.mem_map.mp h with ⟨g, hg, hgc⟩
            rw [← hgc]; exact hle g (List.mem_cons_of_mem _ hg)
        have hlb : (c.plan_notifications pnid).repeat_count + 1 ≤
            (rs.map (fun x => x.count)).foldl Nat.max r.count := by
          rw [← hc0]
          rcases List.mem_cons.mp hg0 with rfl | hg
          · exact h2.1
          · exact h2.2 _ (List.mem_map_of_mem _ hg)
        omega
      · rcases hsome : g1.age with _ | a
        · exact absurd hs1 (by simp [hsome])
        · intro hemp
          rw [List.isEmpty_iff, List.map_eq_nil, List.filterMap_eq_nil] at hemp
          rw [hemp g1 hg1] at hsome
          exact Option.noConfusion hsome
      · rw [List.all_eq_true]
        intro b hb
        rcases List.mem_map.mp hb with ⟨a, ha, rfl⟩
        rcases List.mem_filterMap.mp ha with ⟨g, hg, hga⟩
        simpa using hages g hg a hga

end Iris.Esc

namespace Iris.Esc

theorem key3_filter_eq (c : Caches) (db : DB) (iid pnid tid : Nat) :
    (inactiveJoin c db).filter (fun m =>
        (m.incident_id, m.plan_notification_id, m.target_id) = (iid, pnid, tid)) =
      ((inactiveJoin c db).filter (fun m =>
        m.incident_id = iid ∧ m.plan_notification_id = pnid)).filter
        (fun m => m.target_id = tid) := by
  rw [List.filter_filter]
  refine List.filter_congr ?_
  intro m _
  rw [← Bool.decide_and]
  refine decide_eq_decide.mpr ?_
  constructor
  · intro h
    injection h with h1 h2
    injection h2 with h2 h3
    exact ⟨h3, h1, h2⟩
  · rintro ⟨h3, h1, h2⟩
    rw [h1, h2, h3]

theorem mem_pair_keys_iff (c : Caches) (db : DB) (now : Int) (iid pnid : Nat) :
    (iid, pnid) ∈ firstKeys (fun r => (r.incident_id, r.plan_notification_id))
        (inactiveInner c db now) ↔
      ∃ m ∈ inactiveJoin c db,
        m.incident_id = iid ∧ m.plan_notification_id = pnid := by
  rw [mem_firstKeys]
  constructor
  · rintro ⟨r, hr, hkey⟩
    rw [inactiveInner] at hr
    rcases List.mem_map.mp hr with ⟨k, hk, rfl⟩
    rcases (mem_firstKeys _ _ _).mp hk with ⟨m, hm, rfl⟩
    simp only [inactiveInnerRow, Prod.mk.injEq] at hkey
    exact ⟨m, hm, hkey.1, hkey.2⟩
  · rintro ⟨m, hm, h1, h2⟩
    refine ⟨inactiveInnerRow c db now
      (m.incident_id, m.plan_notification_id, m.target_id), ?_, ?_⟩
    · rw [inactiveInner]
      exact List.mem_map_of_mem _ ((mem_firstKeys _ _ _).mpr ⟨m, hm, rfl⟩)
    · simp [inactiveInnerRow, h1, h2]

theorem inner_filter_pair_eq (c : Caches) (db : DB) (now : Int) (iid pnid : Nat) :
    (inactiveInner c db now).filter
        (fun r => (r.incident_id, r.plan_notification_id) = (iid, pnid)) =
      ((firstKeys (fun m => (m.incident_id, m.plan_notification_id, m.target_id))
          (inactiveJoin c db)).filter
        (fun k => (k.1, k.2.1) = (iid, pnid))).map (inactiveInnerRow c db now) := by
  rw [inactiveInner, List.filter_map]
  rfl

end Iris.Esc

namespace Iris.Esc

theorem pair_exhausted_iff (c : Caches) (db : DB) (now : Int) (iid pnid : Nat) :
    ((iid, pnid) ∈ firstKeys (fun r => (r.incident_id, r.plan_notification_id))
        (inactiveInner c db now) ∧
      exhaustedGroup c
        ((inactiveInner c db now).filter
          (fun r => (r.incident_id, r.plan_notification_id) = (iid, pnid)))
        pnid = true) ↔
      pnExhausted c db now iid pnid := by
  simp only [pnExhausted]
  have hRmap := inner_filter_pair_eq c db now iid pnid
  have hkey : ∀ ka kb kc : Nat,
      (ka, kb, kc) ∈ (firstKeys (fun m =>
          (m.incident_id, m.plan_notification_id, m.target_id))
          (inactiveJoin c db)).filter (fun k => (k.1, k.2.1) = (iid, pnid)) →
      ka = iid ∧ kb = pnid ∧
        ∃ m ∈ (inactiveJoin c db).filter (fun m =>
          m.incident_id = iid ∧ m.plan_notification_id = pnid),
          m.target_id = kc := by
    intro ka kb kc hk
    have hk1 := List.mem_of_mem_filter hk
    have hk2 := List.of_mem_filter hk
    simp only [decide_eq_true_eq, Prod.mk.injEq] at hk2
    obtain ⟨rfl, rfl⟩ := hk2
    rcases (mem_firstKeys _ _ _).mp hk1 with ⟨m, hm, hkm⟩
    injection hkm with h1 h23
    injection h23 with h2 h3
    exact ⟨rfl, rfl, m, List.mem_filter.mpr ⟨hm, by simp [h1, h2]⟩, h3⟩
  have hmk : ∀ m ∈ (inactiveJoin c db).filter (fun m =>
        m.incident_id = iid ∧ m.plan_notification_id = pnid),
      (iid, pnid, m.target_id) ∈ (firstKeys (fun m =>
          (m.incident_id, m.plan_notification_id, m.target_id))
          (inactiveJoin c db)).filter (fun k => (k.1, k.2.1) = (iid, pnid)) := by
    intro m hm
    have h1 := List.mem_of_mem_filter hm
    have h2 := List.of_mem_filter hm
    simp only [decide_eq_true_eq] at h2
    refine List.mem_filter.mpr ⟨?_, by simp⟩
    have heq : (m.incident_id, m.plan_notification_id, m.target_id) =
        (iid, pnid, m.target_id) := by rw [h2.1, h2.2]
    rw [← heq]
    exact (mem_firstKeys _ _ _).mpr ⟨m, h1, rfl⟩
  have hrow : ∀ tid : Nat, inactiveInnerRow c db now (iid, pnid, tid) =
      { incident_id := iid, plan_notification_id := pnid,
        count := (((inactiveJoin c db).filter (fun m =>
          m.incident_id = iid ∧ m.plan_notification_id = pnid)).filter
            (fun m => m.target_id = tid)).length,
        age := (maxSent (((inactiveJoin c db).filter (fun m =>
          m.incident_id = iid ∧ m.plan_notification_id = pnid)).filter
            (fun m => m.target_id = tid))).map (fun s => now - s) } := by
    intro tid
    simp only [inactiveInnerRow]
    rw [key3_filter_eq]
  constructor
  · rintro ⟨hpair, hex⟩
    rcases (mem_pair_keys_iff c db now iid pnid).mp hpair with ⟨m0, hm0, h1, h2⟩
    have hm0M : m0 ∈ (inactiveJoin c db).filter (fun m =>
        m.incident_id = iid ∧ m.plan_notification_id = pnid) :=
      List.mem_filter.mpr ⟨hm0, by simp [h1, h2]⟩
    have hrR : inactiveInnerRow c db now (iid, pnid, m0.target_id) ∈
        (inactiveInner c db now).filter
          (fun r => (r.incident_id, r.plan_notification_id) = (iid, pnid)) := by
      rw [hRmap]
      exact List.mem_map_of_mem _ (hmk m0 hm0M)
    rw [exhaustedGroup_iff c _ pnid (List.ne_nil_of_mem hrR)] at hex
    obtain ⟨⟨⟨r0, hr0, hc0⟩, hle⟩, ⟨r1, hr1, hs1⟩, hages⟩ := hex
    refine ⟨List.ne_nil_of_mem hm0M, ?_, ?_, ?_, ?_⟩
    · rw [hRmap] at hr0
      rcases List.mem_map.mp hr0 with ⟨⟨ka, kb, kc⟩, hkT, rfl⟩
      obtain ⟨rfl, rfl, m, hmM, htid⟩ := hkey ka kb kc hkT
      refine ⟨m, hmM, ?_⟩
      rw [hrow kc] at hc0
      rw [htid]
      simpa using hc0
    · intro m hmM
      have := hle _ (by
        rw [hRmap]
        exact List.mem_map_of_mem _ (hmk m hmM))
      rw [hrow m.target_id] at this
      simpa using this
    · rw [hRmap] at hr1
      rcases List.mem_map.mp hr1 with ⟨⟨ka, kb, kc⟩, hkT, rfl⟩
      obtain ⟨rfl, rfl, m, hmM, htid⟩ := hkey ka kb kc hkT
      refine ⟨m, hmM, ?_⟩
      rw [hrow kc] at hs1
      rw [htid]
      simpa [Option.isSome_map'] using hs1
    · intro m hmM a hma
      have := hages _ (by
        rw [hRmap]
        exact List.mem_map_of_mem _ (hmk m hmM)) (now - a) (by
        rw [hrow m.target_id]
        simp only []
        rw [hma]
        rfl)
      exact this
  · rintro ⟨hMne, ⟨m0, hm0, hc0⟩, hle, ⟨m1, hm1, hs1⟩, hages⟩
    have hm0J := List.mem_of_mem_filter hm0
    have hm0p := List.of_mem_filter hm0
    simp only [decide_eq_true_eq] at hm0p
    have hpair : (iid, pnid) ∈ firstKeys
        (fun r => (r.incident_id, r.plan_notification_id))
        (inactiveInner c db now) :=
      (mem_pair_keys_iff c db now iid pnid).mpr ⟨m0, hm0J, hm0p.1, hm0p.2⟩
    have hrR : inactiveInnerRow c db now (iid, pnid, m0.target_id) ∈
        (inactiveInner c db now).filter
          (fun r => (r.incident_id, r.plan_notification_id) = (iid, pnid)) := by
      rw [hRmap]
      exact List.mem_map_of_mem _ (hmk m0 hm0)
    refine ⟨hpair, ?_⟩
    rw [exhaustedGroup_iff c _ pnid (List.ne_nil_of_mem hrR)]
    refine ⟨⟨?_, ?_⟩, ?_, ?_⟩
    · refine ⟨inactiveInnerRow c db now (iid, pnid, m0.target_id), hrR, ?_⟩
      rw [hrow m0.target_id]
      simpa using hc0
    · intro r hr
      rw [hRmap] at hr
      rcases List.mem_map.mp hr with ⟨⟨ka, kb, kc⟩, hkT, rfl⟩
      obtain ⟨rfl, rfl, m, hmM, htid⟩ := hkey ka kb kc hkT
      rw [hrow kc]
      have := hle m hmM
      rw [htid] at this
      simpa using this
    · refine ⟨inactiveInnerRow c db now (iid, pnid, m1.target_id), ?_, ?_⟩
      · rw [hRmap]
        exact List.mem_map_of_mem _ (hmk m1 hm1)
      · rw [hrow m1.target_id]
        simpa [Option.isSome_map'] using hs1
    · intro r hr a hra
      rw [hRmap] at hr
      rcases List.mem_map.mp hr with ⟨⟨ka, kb, kc⟩, hkT, rfl⟩
      obtain ⟨rfl, rfl, m, hmM, htid⟩ := hkey ka kb kc hkT
      rw [hrow kc] at hra
      simp only [] at hra
      rcases Option.map_eq_some'.mp hra with ⟨s, hms, hsa⟩
      rw [← htid] at hms
      have := hages m hmM s hms
      rw [hsa] at this
      exact this

end Iris.Esc

namespace Iris.Esc

theorem mem_exhaustedIncidents_iff (c : Caches) (db : DB) (now : Int)
    (iid : Nat) :
    iid ∈ exhaustedIncidents c db now ↔
      ∃ pnid, pnExhausted c db now iid pnid := by
  rw [exhaustedIncidents, mem_firstKeys]
  constructor
  · rintro ⟨x, hx, rfl⟩
    rcases List.mem_map.mp hx with ⟨k2, hk2f, rfl⟩
    obtain ⟨a, b⟩ := k2
    have hk2 := List.of_mem_filter hk2f
    have hk2m := List.mem_of_mem_filter hk2f
    exact ⟨b, (pair_exhausted_iff c db now a b).mp ⟨hk2m, hk2⟩⟩
  · rintro ⟨pnid, hpn⟩
    have h := (pair_exhausted_iff c db now iid pnid).mpr hpn
    refine ⟨iid, ?_, rfl⟩
    exact List.mem_map.mpr ⟨(iid, pnid), List.mem_filter.mpr ⟨h.1, h.2⟩, rfl⟩

/-- **C2 (amended).** `INACTIVE_SQL` deactivates an incident exactly
when SOME plan_notification group of its final step is exhausted: the
incident is active at `current_step = step_count` (of the messages'
plans), the plan_notification has at least one message row at that
step, the largest per-target message count equals `repeat + 1`, some
per-target group has a sent message, and every per-target group with a
sent message was last sent more than `wait` seconds ago.
Plan_notifications of the final step with no messages, or with a group
below `repeat + 1`, do not keep the incident active (the claim's
for-every reading is false); every incident in the exhausted set is
rewritten with `active = 0` and all others are untouched. -/
theorem c2_deactivate_amended (c : Caches) (db : DB) (now : Int) :
    (∀ iid, iid ∈ exhaustedIncidents c db now ↔
      ∃ pnid, pnExhausted c db now iid pnid) ∧
    ∀ i ∈ db.incidents,
      ((∃ pnid, pnExhausted c db now i.id pnid) →
        ({ i with active := false } : Incident) ∈
          (deactivate c db now).incidents) ∧
      (¬ (∃ pnid, pnExhausted c db now i.id pnid) →
        i ∈ (deactivate c db now).incidents) := by
  refine ⟨fun iid => mem_exhaustedIncidents_iff c db now iid, ?_⟩
  intro i hi
  constructor
  · intro hex
    have hmem : i.id ∈ exhaustedIncidents c db now :=
      (mem_exhaustedIncidents_iff c db now i.id).mpr hex
    simp only [deactivate]
    have heq : ({ i with active := false } : Incident) =
        (fun j : Incident => if j.id ∈ exhaustedIncidents c db now then
          { j with active := false } else j) i := by
      simp only [if_pos hmem]
    rw [heq]
    exact List.mem_map_of_mem _ hi
  · intro hex
    have hmem : ¬ i.id ∈ exhaustedIncidents c db now := fun h =>
      hex ((mem_exhaustedIncidents_iff c db now i.id).mp h)
    have h2 : (if i.id ∈ exhaustedIncidents c db now then
        ({ i with active := false } : Incident) else i) ∈
        (deactivate c db now).incidents := by
      simp only [deactivate]
      exact List.mem_map_of_mem _ hi
    rwa [if_neg hmem] at h2

/-- Witness for the amended C2 at `exDB2`: pn 7 is an exhausted group
of incident 2, which the update rewrites to `active = 0`. -/
theorem c2_deactivate_amended_witness :
    (2 ∈ exhaustedIncidents exCaches exDB2 100 ↔
      ∃ pnid, pnExhausted exCaches exDB2 100 2 pnid) ∧
    ({ id := 2, plan_id := 12, current_step := 1, active := true } : Incident)
      ∈ exDB2.incidents ∧
    (∃ pnid, pnExhausted exCaches exDB2 100 2 pnid) ∧
    ({ id := 2, plan_id := 12, current_step := 1, active := false } : Incident)
      ∈ (deactivate exCaches exDB2 100).incidents :=
  ⟨(c2_deactivate_amended exCaches exDB2 100).1 2,
   by decide,
   ⟨7, by simp only [pnExhausted]; decide⟩,
   ((c2_deactivate_amended exCaches exDB2 100).2
      { id := 2, plan_id := 12, current_step := 1, active := true }
      (by decide)).1
    ⟨7, by simp only [pnExhausted]; decide⟩⟩

end Iris.Esc
